import Mathlib

/-!
TravelPath: destination controller and search history

A shallow embedding of `Backend/controllers/destinationController.js`
(with the Mongoose models `Path` and `Destination` it queries, and the
frontend `ApiService.searchDestinations`), of the search history and
statistics routes of `Backend/routes/userRoutes.js`, and of
`saveRecentSearch` of the frontend `SearchBox.jsx`, followed by theorems
about them.

Conventions of the embedding

* A request handler is a function from the database state to a response and
  the next database state.  The state carries a log of the store operations
  issued so far, which makes "before any store access" a statement about
  the log.
* Behaviour that lives in a library and is not fixed by the repository
  (the regular expression engine outside the fragment modelled here, the
  `$text` index, the failure of a store operation) is a field of `Env`;
  every theorem holds for all environments unless it says otherwise.
* Strings are Lean strings, read as lists of Unicode characters; the
  JavaScript `length` of a string counts UTF-16 code units (`jsLength`).
* A `Number` is an IEEE 754 double.  The fields of that type hold whole
  numbers here, kept as integers; the handlers compare them, which is exact,
  and add one to `popularity`, which is the double nearest to the sum
  (`jsAdd`): exact from `-2 ^ 53` up to `2 ^ 53`, rounded beyond.
-/

namespace TravelPath

/-! ## Data model (`models/Path.js`, `models/Destination.js`) -/

/-- A Mongo `ObjectId`: twelve bytes, kept as the number they spell. -/
abbrev ObjectId := Nat

/-- Sub-document `stationSchema`. -/
structure Station where
  name : String
  arrivalTime : Option String
  departureTime : Option String
  duration : Option String
  costFromStart : Option Int
  distanceFromStart : Option Int
deriving DecidableEq, Repr

/-- Sub-document `transportOptionSchema`. -/
structure TransportOption where
  type : String
  name : Option String
  cost : Int
  duration : String
  comfortLevel : String
  features : List String
deriving DecidableEq, Repr

/-- Document of `pathSchema`; `from_` and `to_` are the fields `from` and `to`. -/
structure Path where
  _id : ObjectId
  from_ : String
  to_ : String
  totalDistance : Option Int
  totalDuration : Option String
  stations : List Station
  transportOptions : List TransportOption
  popularity : Int
  tags : List String
deriving DecidableEq, Repr

/-- Field `coordinates` of a destination. -/
structure Coordinates where
  lat : Option Int
  lng : Option Int
deriving DecidableEq, Repr

/-- Document of `destinationSchema`. -/
structure Destination where
  _id : ObjectId
  name : String
  type : String
  country : String
  coordinates : Option Coordinates
  popularity : Int
  tags : List String
deriving DecidableEq, Repr

/-- What `.select('name country type')` keeps of a destination (the id is
always kept). -/
structure DestinationSummary where
  _id : ObjectId
  name : String
  country : String
  type : String
deriving DecidableEq, Repr

/-! ## JavaScript values -/

/-- The `length` of a JavaScript string: UTF-16 code units, two for a
character outside the basic plane. -/
def jsLength (s : String) : Nat :=
  (s.toList.map fun c => if c.toNat < 0x10000 then 1 else 2).sum

/-- JavaScript truthiness of an optional string: `undefined` and `''` are
falsy. -/
def truthy : Option String → Bool
  | none => false
  | some s => s != ""

/-- Count of the binary digits of `a`, read off by halving; the first
argument bounds the number of halvings and is `a` itself in every use. -/
def binaryDigits : Nat → Nat → Nat
  | 0, _ => 0
  | fuel + 1, a => if a = 0 then 0 else binaryDigits fuel (a / 2) + 1

/-- The double nearest to a whole number. A double keeps 53 significant
binary digits: a number with more is rounded to a multiple of the power of
two that its surplus digits span, a tie going to the even significand.
(Magnitudes from `2 ^ 1024` on, where a double is `Infinity`, do not arise
from adding one to a double.) -/
def toDouble (n : Int) : Int :=
  let a := n.natAbs
  let ulp := 2 ^ (binaryDigits a a - 53)
  let down := a / ulp
  let rest := a % ulp
  let significand :=
    if 2 * rest < ulp then down
    else if ulp < 2 * rest then down + 1
    else if down % 2 = 0 then down else down + 1
  if n < 0 then -((significand * ulp : Nat) : Int) else ((significand * ulp : Nat) : Int)

/-- The sum `x + y` of two whole-valued Numbers: the exact sum, rounded to
a double. -/
def jsAdd (x y : Int) : Int :=
  toDouble (x + y)

/-! ## Regular expressions: `new RegExp(source, 'i')`

The engine is modelled on the patterns made of ordinary characters and
`.`; for any other pattern the outcome (a `SyntaxError`, or a predicate on
subjects) is taken from the environment. -/

/-- The characters with a meaning in a pattern (`SyntaxCharacter`). -/
def syntaxCharacters : List Char :=
  ['^', '$', '\\', '.', '*', '+', '?', '(', ')', '[', ']', '{', '}', '|']

/-- Line terminators, which `.` does not match. -/
def lineTerminators : List Char :=
  ['\n', '\r', Char.ofNat 0x2028, Char.ofNat 0x2029]

/-- Case canonicalisation of flag `i`: ASCII letters go to upper case; the
mapping of the other characters is the engine's (`fold`). -/
def canonicalize (fold : Char → Char) (c : Char) : Char :=
  if c.toNat < 128 then
    (if 'a'.toNat ≤ c.toNat ∧ c.toNat ≤ 'z'.toNat then Char.ofNat (c.toNat - 32) else c)
  else fold c

/-- One pattern character against one subject character. -/
def atomMatches (fold : Char → Char) (a d : Char) : Bool :=
  if a = '.' then !(lineTerminators.contains d)
  else canonicalize fold a == canonicalize fold d

/-- The pattern matches a prefix of the subject. -/
def matchHere (fold : Char → Char) : List Char → List Char → Bool
  | [], _ => true
  | _ :: _, [] => false
  | a :: as, d :: ds => atomMatches fold a d && matchHere fold as ds

/-- Unanchored search: the pattern matches at some position of the subject. -/
def searchFrom (fold : Char → Char) (pat : List Char) : List Char → Bool
  | [] => matchHere fold pat []
  | d :: ds => matchHere fold pat (d :: ds) || searchFrom fold pat ds

/-- The pattern is in the modelled fragment: every character is ordinary or
is `.`. -/
def inFragment (source : String) : Bool :=
  source.toList.all fun c => c = '.' || !(syntaxCharacters.contains c)

/-! ## Environment, database state, responses -/

/-- What the embedding takes from outside the repository. -/
structure Env where
  /-- The engine on a pattern outside the modelled fragment: the message of
  the `SyntaxError` it throws, or the test it compiles to. -/
  regExp : String → Except String (String → Bool)
  /-- Case mapping of the engine on non-ASCII characters. -/
  fold : Char → Char
  /-- The `$text` index on `name` and `country`: does the document match
  the search string. -/
  textSearch : String → Destination → Bool
  /-- The `n`-th store operation of the run fails with this message. A
  failed operation has no effect on the collections. -/
  fault : Nat → Option String
  /-- Message of the `CastError` for a string that is no `ObjectId`. -/
  castErrorMessage : String → String

/-- Store operations, as recorded in the log. -/
inductive StoreOp where
  | destinationFind
  | pathFind
  | pathUpdateMany
  | pathFindById
  | pathSave
deriving DecidableEq, Repr

/-- The two collections of the controller and the log of operations
issued against them. -/
structure Db where
  destinations : List Destination
  paths : List Path
  log : List StoreOp
deriving DecidableEq, Repr

/-- Body of a JSON response. -/
inductive Body where
  | destinationSummaries (ds : List DestinationSummary)
  | destinations (ds : List Destination)
  | paths (ps : List Path)
  | path (p : Path)
  | message (message : String)
  | serverError (message : String) (error : String)
deriving DecidableEq, Repr

/-- An HTTP response: `res.status(s).json(b)`; `res.json(b)` has status 200. -/
structure Response where
  status : Nat
  body : Body
deriving DecidableEq, Repr

/-- Constructor `new RegExp(source, 'i')`, as a test on subjects, or the
message of the error thrown. -/
def newRegExp (env : Env) (source : String) : Except String (String → Bool) :=
  if inFragment source then
    .ok fun subject => searchFrom env.fold source.toList subject.toList
  else env.regExp source

/-! ## Mongoose queries -/

/-- A Mongoose query under construction: the builder calls record options,
and the store applies them in its own order when the query is awaited. -/
structure Query (α : Type) where
  filter : α → Bool
  sortDescending : Option (α → Int)
  limit : Option Nat

/-- Builder `Model.find(conditions)`. -/
def Query.find {α : Type} (conditions : α → Bool) : Query α :=
  ⟨conditions, none, none⟩

/-- Builder call `.sort({ key: -1 })`. -/
def Query.sort {α : Type} (q : Query α) (key : α → Int) : Query α :=
  { q with sortDescending := some key }

/-- Builder call `.limit(n)`. -/
def Query.setLimit {α : Type} (q : Query α) (n : Nat) : Query α :=
  { q with limit := some n }

/-- Execution on a collection: filter, then sort, then limit, whatever the
order of the builder calls.  Documents with equal keys keep their storage
order. -/
def Query.exec {α : Type} (q : Query α) (docs : List α) : List α :=
  let matched := docs.filter q.filter
  let sorted :=
    match q.sortDescending with
    | some key => matched.insertionSort fun a b => key a ≥ key b
    | none => matched
  match q.limit with
  | some n => sorted.take n
  | none => sorted

/-- Issue a store operation: it is logged, and the environment says
whether it fails. -/
def Db.issue (env : Env) (db : Db) (op : StoreOp) : Option String × Db :=
  (env.fault db.log.length, { db with log := db.log ++ [op] })

/-- Value of a hexadecimal digit. -/
def hexValue (c : Char) : Option Nat :=
  if '0'.toNat ≤ c.toNat ∧ c.toNat ≤ '9'.toNat then some (c.toNat - '0'.toNat)
  else if 'a'.toNat ≤ c.toNat ∧ c.toNat ≤ 'f'.toNat then some (c.toNat - 'a'.toNat + 10)
  else if 'A'.toNat ≤ c.toNat ∧ c.toNat ≤ 'F'.toNat then some (c.toNat - 'A'.toNat + 10)
  else none

/-- Read hexadecimal digits onto an accumulator. -/
def parseHex : List Char → Nat → Option Nat
  | [], acc => some acc
  | c :: cs, acc =>
    match hexValue c with
    | some d => parseHex cs (16 * acc + d)
    | none => none

/-- Mongoose cast of a string to `ObjectId`: a string of 24 hexadecimal
digits (drivers before bson 5 also took any 12-byte string, which is left
out here). -/
def castObjectId (s : String) : Option ObjectId :=
  if s.toList.length = 24 then parseHex s.toList 0 else none

/-- Operation `await Path.find(...)...`. -/
def pathFind (env : Env) (db : Db) (q : Query Path) : Except String (List Path) × Db :=
  match db.issue env .pathFind with
  | (some e, db1) => (.error e, db1)
  | (none, db1) => (.ok (q.exec db1.paths), db1)

/-- The update `{ $inc: { popularity: 1 } }` on one document, and the
assignment `path.popularity += 1` on a loaded one. The field is a Number:
Mongoose writes a value past the 32-bit integers as a double, and the store
adds to a double as JavaScript does. (A field that the store holds as a
64-bit integer adds the same below `2 ^ 53` and is left out beyond.) -/
def incPopularity (p : Path) : Path :=
  { p with popularity := jsAdd p.popularity 1 }

/-- Operation `await Path.updateMany({ _id: { $in: ids } }, { $inc: { popularity: 1 } })`. -/
def pathUpdateMany (env : Env) (db : Db) (ids : List ObjectId) : Except String Unit × Db :=
  match db.issue env .pathUpdateMany with
  | (some e, db1) => (.error e, db1)
  | (none, db1) =>
    (.ok (), { db1 with paths := db1.paths.map fun p =>
      if p._id ∈ ids then incPopularity p else p })

/-- Operation `await Path.findById(id)`: the cast of `id` fails before the store is
reached; otherwise the first document with that `_id`, or `null`. -/
def pathFindById (env : Env) (db : Db) (id : String) : Except String (Option Path) × Db :=
  match castObjectId id with
  | none => (.error (env.castErrorMessage id), db)
  | some oid =>
    match db.issue env .pathFindById with
    | (some e, db1) => (.error e, db1)
    | (none, db1) => (.ok (db1.paths.find? fun p => p._id == oid), db1)

/-- Operation `await path.save()` of a loaded document whose only assigned field is
`popularity`: that field is set on the stored document of the same `_id`.
When the assignment left the value as it was there is nothing to update
(Mongoose then at most looks the document up), which leaves the collection
as setting the same value does. -/
def pathSave (env : Env) (db : Db) (doc : Path) : Except String Unit × Db :=
  match db.issue env .pathSave with
  | (some e, db1) => (.error e, db1)
  | (none, db1) =>
    (.ok (), { db1 with paths := db1.paths.map fun p =>
      if p._id = doc._id then { p with popularity := doc.popularity } else p })

/-- Operation `await Destination.find(...)...`. -/
def destinationFind (env : Env) (db : Db) (q : Query Destination) :
    Except String (List Destination) × Db :=
  match db.issue env .destinationFind with
  | (some e, db1) => (.error e, db1)
  | (none, db1) => (.ok (q.exec db1.destinations), db1)

/-- Projection `.select('name country type')`. -/
def select (d : Destination) : DestinationSummary :=
  ⟨d._id, d.name, d.country, d.type⟩

/-! ## The handlers of `destinationController.js` -/

/-- The `catch` block of every handler. -/
def serverError (error : String) : Response :=
  ⟨500, .serverError "Server error" error⟩

/-- Handler `searchDestinations`; the argument is `req.query.query`. -/
def searchDestinations (env : Env) (db : Db) (query : Option String) : Response × Db :=
  match query with
  | none => (⟨200, .destinationSummaries []⟩, db)
  | some q =>
    if q = "" ∨ jsLength q < 2 then (⟨200, .destinationSummaries []⟩, db)
    else
      match destinationFind env db
          (((Query.find (env.textSearch q)).setLimit 10).sort fun d => d.popularity) with
      | (.error e, db1) => (serverError e, db1)
      | (.ok destinations, db1) => (⟨200, .destinationSummaries (destinations.map select)⟩, db1)

/-- The query parameters of `getPaths`. -/
structure PathsRequest where
  from_ : Option String
  to_ : Option String
  transportType : Option String
deriving DecidableEq, Repr

/-- The object `query` of `getPaths` as first built: `from` and `to` are
tested by the two regular expressions. -/
def baseQuery (reFrom reTo : String → Bool) (p : Path) : Bool :=
  reFrom p.from_ && reTo p.to_

/-- The object `query` after `if (transportType) query['transportOptions.type'] = transportType`:
some element of `transportOptions` has that `type`. -/
def pathsQuery (reFrom reTo : String → Bool) (transportType : Option String) (p : Path) : Bool :=
  match transportType with
  | some t =>
    if t != "" then baseQuery reFrom reTo p && p.transportOptions.any fun o => o.type == t
    else baseQuery reFrom reTo p
  | none => baseQuery reFrom reTo p

/-- The `try` block of `getPaths` after the parameter check. -/
def getPathsBody (env : Env) (db : Db) (from_ to_ : String) (transportType : Option String) :
    Except String (List Path) × Db :=
  match newRegExp env from_ with
  | .error e => (.error e, db)
  | .ok reFrom =>
    match newRegExp env to_ with
    | .error e => (.error e, db)
    | .ok reTo =>
      match pathFind env db
          (((Query.find (pathsQuery reFrom reTo transportType)).sort fun p => p.popularity).setLimit 10) with
      | (.error e, db1) => (.error e, db1)
      | (.ok paths, db1) =>
        if paths.length > 0 then
          match pathUpdateMany env db1 (paths.map fun p => p._id) with
          | (.error e, db2) => (.error e, db2)
          | (.ok _, db2) => (.ok paths, db2)
        else (.ok paths, db1)

/-- Handler `getPaths`. -/
def getPaths (env : Env) (db : Db) (req : PathsRequest) : Response × Db :=
  match req.from_, req.to_ with
  | some from_, some to_ =>
    if from_ = "" ∨ to_ = "" then
      (⟨400, .message "From and to parameters are required"⟩, db)
    else
      match getPathsBody env db from_ to_ req.transportType with
      | (.error e, db1) => (serverError e, db1)
      | (.ok paths, db1) => (⟨200, .paths paths⟩, db1)
  | _, _ => (⟨400, .message "From and to parameters are required"⟩, db)

/-- The paths a response carries (none when it is not a list of paths). -/
def returnedPaths (res : Response) : List Path :=
  match res.body with
  | .paths ps => ps
  | _ => []

/-- The database after `n` sequential calls of `getPaths` with the same
request. -/
def getPathsTimes (env : Env) (req : PathsRequest) : Nat → Db → Db
  | 0, db => db
  | n + 1, db => getPathsTimes env req n (getPaths env db req).2

/-- Handler `getPathDetails`; the argument is `req.params.id`. -/
def getPathDetails (env : Env) (db : Db) (id : String) : Response × Db :=
  match pathFindById env db id with
  | (.error e, db1) => (serverError e, db1)
  | (.ok none, db1) => (⟨404, .message "Path not found"⟩, db1)
  | (.ok (some path), db1) =>
    let path1 := incPopularity path
    match pathSave env db1 path1 with
    | (.error e, db2) => (serverError e, db2)
    | (.ok _, db2) => (⟨200, .path path1⟩, db2)

/-- Handler `getPopularDestinations`. -/
def getPopularDestinations (env : Env) (db : Db) : Response × Db :=
  match destinationFind env db
      (((Query.find fun _ => true).sort fun d => d.popularity).setLimit 8) with
  | (.error e, db1) => (serverError e, db1)
  | (.ok destinations, db1) => (⟨200, .destinations destinations⟩, db1)

/-! ## Frontend: `services/api.js` -/

/-- What a method of `ApiService` does: return a value at once, or issue a
request to an endpoint. -/
inductive ClientStep where
  | value (ds : List DestinationSummary)
  | request (endpoint : String)
deriving DecidableEq, Repr

/-- Method `ApiService.searchDestinations`; `encodeURIComponent` is the
built-in. -/
def ApiService.searchDestinations (encodeURIComponent : String → String)
    (query : Option String) : ClientStep :=
  match query with
  | none => .value []
  | some q =>
    if q = "" ∨ jsLength q < 2 then .value []
    else .request ("/destinations/search?query=" ++ encodeURIComponent q)

/-! ## Sample data -/

/-- An environment without faults: patterns outside the fragment are
rejected, no non-ASCII case mapping, `$text` matches a document whose name
is the search string. -/
def plainEnv : Env where
  regExp := fun source => .error ("Invalid regular expression: /" ++ source ++ "/")
  fold := id
  textSearch := fun q d => d.name == q
  fault := fun _ => none
  castErrorMessage := fun id => "Cast to ObjectId failed for value \"" ++ id ++ "\""

/-- A path with no stations or options. -/
def mkPath (id : Nat) (from_ to_ : String) (popularity : Int) : Path :=
  ⟨id, from_, to_, none, none, [], [], popularity, []⟩

/-- Three stored paths, one of them with a train. -/
def sampleDb : Db :=
  { destinations := []
    paths :=
      [ mkPath 1 "Paris" "Rome" 5,
        { mkPath 2 "Paris Nord" "Roma Termini" 7 with
          transportOptions := [⟨"train", none, 120, "11h", "comfort", []⟩] },
        mkPath 3 "Berlin" "Prague" 1 ]
    log := [] }

/-- The sample collection with other transport options on every path. -/
def sampleDbByBus : Db :=
  { sampleDb with
    paths := sampleDb.paths.map fun p =>
      { p with transportOptions := [⟨"bus", none, 40, "20h", "economy", []⟩] } }

/-- A path with three stations and two transport options. -/
def romeExpress : Path :=
  { _id := 0xa7
    from_ := "Paris"
    to_ := "Rome"
    totalDistance := some 1420
    totalDuration := some "11h 30m"
    stations :=
      [ ⟨"Paris Gare de Lyon", none, some "08:00", none, some 0, some 0⟩,
        ⟨"Milano Centrale", some "15:10", some "15:40", some "7h 10m", some 95, some 850⟩,
        ⟨"Roma Termini", some "19:30", none, some "11h 30m", some 140, some 1420⟩ ]
    transportOptions :=
      [ ⟨"train", some "Frecciarossa", 140, "11h 30m", "comfort", ["wifi"]⟩,
        ⟨"flight", none, 210, "2h 05m", "economy", []⟩ ]
    popularity := 12
    tags := ["scenic"] }

/-- A collection that holds `romeExpress` among other paths. -/
def expressDb : Db :=
  { destinations := []
    paths := [mkPath 1 "Paris" "Rome" 5, romeExpress, mkPath 3 "Berlin" "Prague" 1]
    log := [] }

/-- A destination with coordinates and tags left out. -/
def mkDestination (id : Nat) (name country : String) (popularity : Int) : Destination :=
  ⟨id, name, "city", country, none, popularity, []⟩

/-- Nine destinations, stored in increasing order of popularity. -/
def nineDestinations : Db :=
  { destinations := (List.range 9).map fun i => mkDestination i "Paris" "France" i
    paths := []
    log := [] }

/-- Eleven stored paths from Paris to Rome, of popularity 20 down to 10. -/
def elevenPaths : Db :=
  { destinations := []
    paths := (List.range 11).map fun i => mkPath i "Paris" "Rome" (20 - (i : Int))
    log := [] }

/-- A path whose popularity is `2 ^ 53`, the first whole number whose
successor is not a double. -/
def saturated : Path :=
  mkPath 7 "Paris" "Rome" 9007199254740992

/-- A collection that holds `saturated` and a path of small popularity. -/
def saturatedDb : Db :=
  { destinations := []
    paths := [saturated, mkPath 8 "Paris" "Rome" 5]
    log := [] }

/-- The request `?from=.&to=rome`. -/
def dotRome : PathsRequest :=
  ⟨some ".", some "rome", none⟩

/-- The request `?from=paris&to=rom&transportType=`. -/
def emptyTransportType : PathsRequest :=
  ⟨some "paris", some "rom", some ""⟩

/-- The request `?from=paris&to=rom&transportType=train`. -/
def byTrain : PathsRequest :=
  ⟨some "paris", some "rom", some "train"⟩

/-- The request `?from=paris&to=rom`. -/
def parisRome : PathsRequest :=
  ⟨some "paris", some "rom", none⟩

/-! ## Vocabulary of the statements -/

/-- The path satisfies the filter of a request that passes the parameter
check and whose patterns compile. -/
def matchesRequest (env : Env) (req : PathsRequest) (p : Path) : Bool :=
  match req.from_, req.to_ with
  | some f, some t =>
    if f = "" ∨ t = "" then false
    else
      match newRegExp env f, newRegExp env t with
      | .ok reFrom, .ok reTo => pathsQuery reFrom reTo req.transportType p
      | _, _ => false
  | _, _ => false

/-- The order of `.sort({ key: -1 })`. -/
abbrev keyDesc {α : Type} (key : α → Int) : α → α → Prop := fun a b => key a ≥ key b

instance keyDesc_total {α : Type} (key : α → Int) : IsTotal α (keyDesc key) :=
  ⟨fun a b => le_total (key b) (key a)⟩

instance keyDesc_trans {α : Type} (key : α → Int) : IsTrans α (keyDesc key) :=
  ⟨fun _ _ _ hab hbc => le_trans hbc hab⟩

/-- The string has no character with a meaning in a pattern. -/
def isLiteral (s : String) : Bool :=
  s.toList.all fun c => !(syntaxCharacters.contains c)

/-- The string `needle` occurs in `hay` as a contiguous run of characters,
letter case apart. -/
def ContainsIgnoringCase (fold : Char → Char) (hay needle : String) : Prop :=
  needle.toList.map (canonicalize fold) <:+: hay.toList.map (canonicalize fold)

/-- The request passes the parameter check of `getPaths` and both its
patterns compile. -/
def ValidRequest (env : Env) (req : PathsRequest) : Prop :=
  ∃ f t reFrom reTo, req.from_ = some f ∧ req.to_ = some t ∧ f ≠ "" ∧ t ≠ "" ∧
    newRegExp env f = .ok reFrom ∧ newRegExp env t = .ok reTo

/-- A path without its transport options. -/
def clearOptions (p : Path) : Path :=
  { p with transportOptions := [] }

/-- A response without the transport options of the paths it carries. -/
def Response.clearOptions (res : Response) : Response :=
  match res.body with
  | .paths ps => ⟨res.status, .paths (ps.map TravelPath.clearOptions)⟩
  | .path p => ⟨res.status, .path (TravelPath.clearOptions p)⟩
  | _ => res

/-- The query that `getPaths` awaits, run on a collection. -/
def foundPaths (reFrom reTo : String → Bool) (transportType : Option String)
    (docs : List Path) : List Path :=
  (((Query.find (pathsQuery reFrom reTo transportType)).sort fun p => p.popularity).setLimit 10).exec
    docs

/-- The effect of `updateMany` with the ids of `returned` on one document. -/
def incIfReturned (returned : List Path) (p : Path) : Path :=
  if p._id ∈ returned.map (fun r => r._id) then incPopularity p else p

/-- No two documents of the collection share an `_id`. -/
def UniqueIds (docs : List Path) : Prop :=
  (docs.map fun p => p._id).Nodup

instance (docs : List Path) : Decidable (UniqueIds docs) := by
  unfold UniqueIds; infer_instance

/-- No store operation fails. -/
def NoFault (env : Env) : Prop :=
  ∀ n, env.fault n = none

/-! ## Search history (`routes/userRoutes.js`)

The routes act on the user collection only.  A user is addressed by
`req.userId`, which the `authenticate` middleware provides; the collection
is a finite map from `_id` to document.  Times are milliseconds since the
epoch.  The store operations on users are taken to succeed. -/

/-- Modelled from the spec: the sub-document of `searchHistory` in
`models/User.js`, a schema that is not among the sources; the fields are
those the routes read and write. -/
structure SearchEntry where
  _id : ObjectId
  from_ : String
  to_ : String
  searchedAt : Int
deriving DecidableEq, Repr

/-- Modelled from the spec: the document of `models/User.js`, a schema that
is not among the sources; of its fields, those the history routes use. -/
structure User where
  _id : ObjectId
  name : String
  email : String
  createdAt : Int
  searchHistory : List SearchEntry
deriving DecidableEq, Repr

/-- The user collection, by `_id`. -/
abbrev UserStore := ObjectId → Option User

/-- What a user route can throw into its `catch` block. -/
inductive Thrown where
  | nullUser
  | castError (value : String)
  | sliceRejected
deriving DecidableEq, Repr

/-- What the user routes take from outside the repository. -/
structure UserEnv where
  /-- The built-in `String.prototype.toLowerCase`. -/
  toLowerCase : String → String
  /-- Whether `process.env.NODE_ENV` is `development`. -/
  development : Bool
  /-- The `message` of a thrown error. -/
  message : Thrown → String
  /-- The projection `$slice: [skip, limit]` of the store outside
  `0 ≤ skip`, `1 ≤ limit`: the array it keeps, or nothing when the store
  rejects the query. -/
  sliceOther : Int → Int → List SearchEntry → Option (List SearchEntry)

/-- An element of `favoriteRoutes`. -/
structure FavoriteRoute where
  route : String
  count : Nat
deriving DecidableEq, Repr

/-- The object `statistics` of `GET /statistics`. -/
structure Statistics where
  totalSearches : Nat
  recentSearches : Nat
  favoriteRoutes : List FavoriteRoute
  memberSince : Int
  accountAgeDays : Int
deriving DecidableEq, Repr

/-- The object `pagination` of a history response. -/
structure Pagination where
  page : Int
  limit : Int
  total : Nat
deriving DecidableEq, Repr

/-- Body of a JSON response of the user routes. -/
inductive UserBody where
  | success (message : String)
  | failure (message : String) (error : Option String)
  | validationFailed (message : String) (errors : List String)
  | history (searchHistory : List SearchEntry) (pagination : Pagination)
  | statistics (statistics : Statistics)
deriving DecidableEq, Repr

/-- An HTTP response of the user routes. -/
structure UserResponse where
  status : Nat
  body : UserBody
deriving DecidableEq, Repr

/-- The `catch` block of a user route. -/
def caught (env : UserEnv) (message : String) (e : Thrown) : UserResponse :=
  ⟨500, .failure message (if env.development then some (env.message e) else none)⟩

/-- The answer `User not found`. -/
def userNotFound : UserResponse :=
  ⟨404, .failure "User not found" none⟩

/-- White space of JavaScript (`\s`), which `trim` of express-validator
removes. -/
def isJsWhitespace (c : Char) : Bool :=
  decide (c.toNat = 9 ∨ c.toNat = 10 ∨ c.toNat = 11 ∨ c.toNat = 12 ∨ c.toNat = 13 ∨
    c.toNat = 32 ∨ c.toNat = 0xa0 ∨ c.toNat = 0x1680 ∨ (0x2000 ≤ c.toNat ∧ c.toNat ≤ 0x200a) ∨
    c.toNat = 0x2028 ∨ c.toNat = 0x2029 ∨ c.toNat = 0x202f ∨ c.toNat = 0x205f ∨
    c.toNat = 0x3000 ∨ c.toNat = 0xfeff)

/-- Sanitizer `.trim()`: white space removed at both ends. -/
def trim (s : String) : String :=
  ⟨((s.toList.dropWhile isJsWhitespace).reverse.dropWhile isJsWhitespace).reverse⟩

/-- Validator `.notEmpty()` on a body field: a missing field counts as the
empty string. -/
def notEmpty : Option String → Bool
  | none => false
  | some s => s != ""

/-- The array `errors.array()` of the two validation chains of
`POST /search-history`. -/
def validationErrors (from_ to_ : Option String) : List String :=
  (if notEmpty from_ then [] else ["From location is required"]) ++
  (if notEmpty to_ then [] else ["To location is required"])

/-- The modifier `$slice: -n` of `$push`: the last `n` elements. -/
def lastN {α : Type} (n : Nat) (l : List α) : List α :=
  l.drop (l.length - n)

/-- The positional update `'searchHistory.$.searchedAt'`: the first element
whose `_id` is the one of the query gets the new time. -/
def setSearchedAt (id : ObjectId) (time : Int) : List SearchEntry → List SearchEntry
  | [] => []
  | s :: rest =>
    if s._id = id then { s with searchedAt := time } :: rest
    else s :: setSearchedAt id time rest

/-- The test of `recentDuplicate` on one entry. -/
def isRecentDuplicate (env : UserEnv) (from_ to_ : String) (oneHourAgo : Int)
    (search : SearchEntry) : Bool :=
  env.toLowerCase search.from_ == env.toLowerCase from_ &&
  env.toLowerCase search.to_ == env.toLowerCase to_ &&
  decide (search.searchedAt > oneHourAgo)

/-- An update operator on `searchHistory`, applied to the document stored
under `userId`, if there is one. -/
def updateHistory (store : UserStore) (userId : ObjectId)
    (update : List SearchEntry → List SearchEntry) : UserStore :=
  fun id =>
    if id = userId then
      (store id).map fun user => { user with searchHistory := update user.searchHistory }
    else store id

/-- Route `POST /search-history` (recordSearch). `from_` and `to_` are the
fields of `req.body`; `now` is the reading `Date.now()`, `stamp` the later
reading `new Date()` stored in the entry, and `newId` the `_id` given to a
pushed entry. -/
def recordSearch (env : UserEnv) (store : UserStore) (userId : ObjectId)
    (from_ to_ : Option String) (now stamp : Int) (newId : ObjectId) :
    UserResponse × UserStore :=
  if validationErrors from_ to_ ≠ [] then
    (⟨400, .validationFailed "Validation failed" (validationErrors from_ to_)⟩, store)
  else
    let from1 := trim (from_.getD "")
    let to1 := trim (to_.getD "")
    let oneHourAgo := now - 60 * 60 * 1000
    match store userId with
    | none => (caught env "Server error while adding search to history" .nullUser, store)
    | some user =>
      match user.searchHistory.find? (isRecentDuplicate env from1 to1 oneHourAgo) with
      | some recentDuplicate =>
        (⟨200, .success "Search added to history"⟩,
          updateHistory store userId (setSearchedAt recentDuplicate._id stamp))
      | none =>
        (⟨200, .success "Search added to history"⟩,
          updateHistory store userId fun history =>
            lastN 50 (history ++ [⟨newId, from1, to1, stamp⟩]))

/-- The projection `.slice('searchHistory', [skip, limit])`. -/
def sliceProjection (env : UserEnv) (skip limit : Int) (history : List SearchEntry) :
    Option (List SearchEntry) :=
  if 0 ≤ skip ∧ 1 ≤ limit then some ((history.drop skip.toNat).take limit.toNat)
  else env.sliceOther skip limit history

/-- Route `GET /search-history` (listHistory). `page` and `limit` are the
values of `parseInt` on the query parameters, when these are given. -/
def listHistory (env : UserEnv) (store : UserStore) (userId : ObjectId)
    (page limit : Option Int) : UserResponse :=
  let limit1 := limit.getD 20
  let page1 := page.getD 1
  let skip := (page1 - 1) * limit1
  match store userId with
  | none => userNotFound
  | some user =>
    match sliceProjection env skip limit1 user.searchHistory with
    | none => caught env "Server error while fetching search history" .sliceRejected
    | some searchHistory =>
      let sortedHistory := searchHistory.insertionSort fun a b => a.searchedAt ≥ b.searchedAt
      ⟨200, .history sortedHistory ⟨page1, limit1, sortedHistory.length⟩⟩

/-- Route `DELETE /search-history` (clearHistory). -/
def clearHistory (store : UserStore) (userId : ObjectId) : UserResponse × UserStore :=
  (⟨200, .success "Search history cleared successfully"⟩,
    updateHistory store userId fun _ => [])

/-- Route `DELETE /search-history/:searchId` (deleteEntry). The update
`$pull` is cast before it is sent, so an id that is no `ObjectId` throws. -/
def deleteEntry (env : UserEnv) (store : UserStore) (userId : ObjectId) (searchId : String) :
    UserResponse × UserStore :=
  match castObjectId searchId with
  | none =>
    (caught env "Server error while deleting search from history" (.castError searchId), store)
  | some id =>
    match store userId with
    | none => (userNotFound, store)
    | some _ =>
      (⟨200, .success "Search removed from history"⟩,
        updateHistory store userId fun history => history.filter fun s => s._id != id)

/-- The text between `from` and `to` in a route key, as the source file
has it: a space, the characters U+00E2, U+2020 and U+2019, a space. -/
def routeSeparator : String :=
  " \u00e2\u2020\u2019 "

/-- The template string `route` of one entry. -/
def routeKey (search : SearchEntry) : String :=
  search.from_ ++ routeSeparator ++ search.to_

/-- The step `acc[route] = (acc[route] || 0) + 1` on the object `acc`,
kept as the list of its keys and values in insertion order (no route key
is an array index or an inherited property name, as every key holds the
separator). -/
def countRoute : List (String × Nat) → String → List (String × Nat)
  | [], route => [(route, 1)]
  | (key, count) :: rest, route =>
    if key = route then (key, count + 1) :: rest
    else (key, count) :: countRoute rest route

/-- The object `routeCounts`, as `Object.entries` lists it. -/
def routeCounts (history : List SearchEntry) : List (String × Nat) :=
  history.foldl (fun acc search => countRoute acc (routeKey search)) []

/-- The array `favoriteRoutes`: the entries sorted by count, largest
first, cut to five. -/
def favoriteRoutes (history : List SearchEntry) : List FavoriteRoute :=
  (((routeCounts history).insertionSort fun a b => a.2 ≥ b.2).take 5).map
    fun entry => ⟨entry.1, entry.2⟩

/-- Route `GET /statistics`. `now` is the reading `Date.now()` and `stamp`
the later reading `new Date()`. -/
def getStatistics (store : UserStore) (userId : ObjectId) (now stamp : Int) : UserResponse :=
  match store userId with
  | none => userNotFound
  | some user =>
    ⟨200, .statistics
      { totalSearches := user.searchHistory.length
        recentSearches :=
          (user.searchHistory.filter fun search =>
            decide (search.searchedAt > now - 30 * 24 * 60 * 60 * 1000)).length
        favoriteRoutes := favoriteRoutes user.searchHistory
        memberSince := user.createdAt
        accountAgeDays := Int.fdiv (stamp - user.createdAt) (1000 * 60 * 60 * 24) }⟩

/-! ### Frontend: `components/SearchBox.jsx` -/

/-- An element of the list `recentSearches` kept in `localStorage`. -/
structure RecentSearch where
  from_ : String
  to_ : String
  timestamp : String
deriving DecidableEq, Repr

/-- Function `saveRecentSearch`: the list it stores. `timestamp` is
`new Date().toISOString()`. -/
def saveRecentSearch (recentSearches : List RecentSearch) (from_ to_ timestamp : String) :
    List RecentSearch :=
  (⟨from_, to_, timestamp⟩ ::
    recentSearches.filter fun s => !(s.from_ == from_ && s.to_ == to_)).take 5

/-- A call of one of the routes that write the history. -/
inductive HistoryOp where
  | record (userId : ObjectId) (from_ to_ : Option String) (now stamp : Int) (newId : ObjectId)
  | delete (userId : ObjectId) (searchId : String)
  | clear (userId : ObjectId)
deriving Repr

/-- The store after one call. -/
def HistoryOp.run (env : UserEnv) (store : UserStore) : HistoryOp → UserStore
  | .record userId from_ to_ now stamp newId =>
    (recordSearch env store userId from_ to_ now stamp newId).2
  | .delete userId searchId => (deleteEntry env store userId searchId).2
  | .clear userId => (clearHistory store userId).2

/-- The store after a sequence of calls. -/
def runOps (env : UserEnv) (store : UserStore) (ops : List HistoryOp) : UserStore :=
  ops.foldl (HistoryOp.run env) store

/-- The search history stored for a user (empty when there is no such
user). -/
def historyOf (store : UserStore) (userId : ObjectId) : List SearchEntry :=
  match store userId with
  | some user => user.searchHistory
  | none => []

/-- The entry is for the pair, letter case apart: the key of the
duplicate test. -/
def samePair (env : UserEnv) (from_ to_ : String) (search : SearchEntry) : Bool :=
  env.toLowerCase search.from_ == env.toLowerCase from_ &&
  env.toLowerCase search.to_ == env.toLowerCase to_

/-- The store after `recordSearch` of the pair at one instant: both clock
readings of the call are `time`. -/
def recordAt (env : UserEnv) (store : UserStore) (userId : ObjectId) (from_ to_ : String)
    (time : Int) (newId : ObjectId) : UserStore :=
  (recordSearch env store userId (some from_) (some to_) time time newId).2

/-- The field `searchHistory` of a history response. -/
def UserResponse.entries (res : UserResponse) : List SearchEntry :=
  match res.body with
  | .history searchHistory _ => searchHistory
  | _ => []

/-- The field `pagination.total` of a history response. -/
def UserResponse.total (res : UserResponse) : Option Nat :=
  match res.body with
  | .history _ pagination => some pagination.total
  | _ => none

/-- Every stored history has at most fifty entries. -/
def Bounded (store : UserStore) : Prop :=
  ∀ id user, store id = some user → user.searchHistory.length ≤ 50

/-- The page in the words of the specification: the whole history is
sorted by `searchedAt`, newest first, and the page is taken from that. -/
def specPage (history : List SearchEntry) (page limit : Int) : List SearchEntry :=
  ((history.insertionSort fun a b => a.searchedAt ≥ b.searchedAt).drop
    ((page - 1) * limit).toNat).take limit.toNat

/-! ### Sample data for the history routes -/

/-- Lower case of an ASCII letter; other characters are kept. -/
def asciiToLower (c : Char) : Char :=
  if 'A'.toNat ≤ c.toNat ∧ c.toNat ≤ 'Z'.toNat then Char.ofNat (c.toNat + 32) else c

/-- An environment of the user routes: lower case on ASCII letters,
production mode, a store that rejects the slices it is asked about. -/
def plainUserEnv : UserEnv where
  toLowerCase := fun s => ⟨s.toList.map asciiToLower⟩
  development := false
  message := fun _ => "error"
  sliceOther := fun _ _ _ => none

/-- A user with the given history. -/
def mkUser (id : Nat) (history : List SearchEntry) : User :=
  ⟨id, "Ada", "ada@example.org", 0, history⟩

/-- A collection that holds one user, of `_id` 1. -/
def oneUser (history : List SearchEntry) : UserStore :=
  fun id => if id = 1 then some (mkUser 1 history) else none

/-- Three entries stored in the order in which they were recorded. -/
def threeSearches : List SearchEntry :=
  [⟨11, "Paris", "Rome", 1000⟩, ⟨12, "Berlin", "Prague", 2000⟩, ⟨13, "Oslo", "Bergen", 3000⟩]

/-- The name of place `i`, for `i` below 100: the letter `p` and the two
decimal digits of `i`, as in `p07`. -/
def placeName (i : Nat) : String :=
  ⟨['p', Char.ofNat (48 + i / 10), Char.ofNat (48 + i % 10)]⟩

/-- A search from place `i` to `z`, recorded at time `i` with entry id
`100 + i`. -/
def distinctSearch (i : Nat) : HistoryOp :=
  .record 1 (some (placeName i)) (some "z") i i (100 + i)

/-- Fifty-one searches at increasing times: `p00`, `p01`, `p00` again (a
duplicate within the hour), then `p03` to `p50`. -/
def refreshedFirst : List HistoryOp :=
  [distinctSearch 0, distinctSearch 1, .record 1 (some "p00") (some "z") 2 2 102] ++
  (List.range 48).map fun i => distinctSearch (i + 3)

/-- Three searches from Paris to Rome and one from Berlin to Prague. -/
def parisRomeThrice : List SearchEntry :=
  [⟨21, "Paris", "Rome", 1000⟩, ⟨22, "Berlin", "Prague", 2000⟩, ⟨23, "Paris", "Rome", 3000⟩,
    ⟨24, "Paris", "Rome", 4000⟩]

/-- Two searches with different pairs whose texts hold the separator. -/
def overlappingRoutes : List SearchEntry :=
  [⟨31, "A", "B" ++ routeSeparator ++ "C", 1000⟩, ⟨32, "A" ++ routeSeparator ++ "B", "C", 2000⟩]

/-- An environment in which every store operation fails. -/
def downEnv : Env :=
  { plainEnv with fault := fun _ => some "connection refused" }

/-- An environment in which the second store operation fails. -/
def flakyEnv : Env :=
  { plainEnv with fault := fun n => if n = 1 then some "connection reset" else none }

/-- Six recent searches, two of them from `a` to `b`. -/
def sixRecent : List RecentSearch :=
  [⟨"a", "b", "t0"⟩, ⟨"c", "d", "t1"⟩, ⟨"a", "b", "t2"⟩, ⟨"e", "f", "t3"⟩, ⟨"g", "h", "t4"⟩,
    ⟨"i", "j", "t5"⟩]

/-! ## Lemmas on query execution -/

section Exec

variable {α : Type}

/-- A sorted and limited query is the first `n` of the sorted matches. -/
theorem exec_sort_limit (filter : α → Bool) (key : α → Int) (n : Nat) (docs : List α) :
    Query.exec ⟨filter, some key, some n⟩ docs
      = ((docs.filter filter).insertionSort (keyDesc key)).take n := rfl

theorem exec_length_le (filter : α → Bool) (key : α → Int) (n : Nat) (docs : List α) :
    (Query.exec ⟨filter, some key, some n⟩ docs).length ≤ n := by
  rw [exec_sort_limit, List.length_take]
  exact Nat.min_le_left _ _

theorem exec_length (filter : α → Bool) (key : α → Int) (n : Nat) (docs : List α) :
    (Query.exec ⟨filter, some key, some n⟩ docs).length = min n (docs.filter filter).length := by
  rw [exec_sort_limit, List.length_take, List.length_insertionSort]

theorem exec_sorted (filter : α → Bool) (key : α → Int) (n : Nat) (docs : List α) :
    (Query.exec ⟨filter, some key, some n⟩ docs).Pairwise (keyDesc key) := by
  rw [exec_sort_limit]
  exact (List.sorted_insertionSort (keyDesc key) _).sublist (List.take_sublist _ _)

theorem mem_of_mem_exec {filter : α → Bool} {key : α → Int} {n : Nat} {docs : List α} {x : α}
    (h : x ∈ Query.exec ⟨filter, some key, some n⟩ docs) : x ∈ docs.filter filter := by
  rw [exec_sort_limit] at h
  exact (List.mem_insertionSort _).1 (List.mem_of_mem_take h)

/-- A match that the limit cut off is no more popular than any document
kept. -/
theorem exec_top {filter : α → Bool} (key : α → Int) {n : Nat} {docs : List α} {x y : α}
    (hx : x ∈ docs.filter filter) (hx' : x ∉ Query.exec ⟨filter, some key, some n⟩ docs)
    (hy : y ∈ Query.exec ⟨filter, some key, some n⟩ docs) : key x ≤ key y := by
  rw [exec_sort_limit] at hx' hy
  have hmem : x ∈ (docs.filter filter).insertionSort (keyDesc key) :=
    (List.mem_insertionSort _).2 hx
  rw [← List.take_append_drop n ((docs.filter filter).insertionSort (keyDesc key))] at hmem
  rcases List.mem_append.1 hmem with h | h
  · exact absurd h hx'
  · exact (List.sorted_insertionSort (keyDesc key) _).rel_of_mem_take_of_mem_drop hy h

/-- When the limit cuts nothing off, the result is the matches, reordered. -/
theorem exec_perm {filter : α → Bool} {key : α → Int} {n : Nat} {docs : List α}
    (h : (docs.filter filter).length ≤ n) :
    (Query.exec ⟨filter, some key, some n⟩ docs).Perm (docs.filter filter) := by
  rw [exec_sort_limit, List.take_of_length_le (by rwa [List.length_insertionSort])]
  exact List.perm_insertionSort _ _

end Exec

/-! ## Lemmas on Numbers -/

theorem binaryDigits_le (k : Nat) : ∀ (fuel a : Nat), a < 2 ^ k → binaryDigits fuel a ≤ k := by
  induction k with
  | zero =>
    intro fuel a h
    have ha : a = 0 := by simpa using h
    cases fuel <;> simp [binaryDigits, ha]
  | succ k ih =>
    intro fuel a h
    cases fuel with
    | zero => simp [binaryDigits]
    | succ fuel =>
      unfold binaryDigits
      split
      · exact Nat.zero_le _
      · have : a / 2 < 2 ^ k := by
          rw [Nat.div_lt_iff_lt_mul (by decide)]
          rw [pow_succ] at h
          exact h
        exact Nat.succ_le_succ (ih fuel (a / 2) this)

theorem toDouble_of_lt {n : Int} (h : n.natAbs < 2 ^ 53) : toDouble n = n := by
  unfold toDouble
  have hd : binaryDigits n.natAbs n.natAbs - 53 = 0 :=
    Nat.sub_eq_zero_of_le (binaryDigits_le 53 _ _ h)
  simp only [hd, pow_zero, Nat.div_one, Nat.mod_one, mul_zero, Nat.lt_one_iff, if_true,
    mul_one]
  split <;> omega

/-- A whole number of magnitude up to `2 ^ 53` is a double. -/
theorem toDouble_exact {n : Int} (h : n.natAbs ≤ 2 ^ 53) : toDouble n = n := by
  rcases Nat.lt_or_ge n.natAbs (2 ^ 53) with hlt | hge
  · exact toDouble_of_lt hlt
  · have heq : n.natAbs = 2 ^ 53 := le_antisymm h hge
    rcases Int.natAbs_eq n with hn | hn
    · rw [hn, heq]; decide
    · rw [hn, heq]; decide

/-- Adding one is exact from `-2 ^ 53` up to, and not including, `2 ^ 53`. -/
theorem jsAdd_one {x : Int} (hlo : -2 ^ 53 ≤ x) (hhi : x < 2 ^ 53) : jsAdd x 1 = x + 1 := by
  unfold jsAdd
  apply toDouble_exact
  norm_num at hlo hhi ⊢
  omega

theorem incPopularity_exact {p : Path} (hlo : -2 ^ 53 ≤ p.popularity)
    (hhi : p.popularity < 2 ^ 53) :
    incPopularity p = { p with popularity := p.popularity + 1 } := by
  unfold incPopularity
  rw [jsAdd_one hlo hhi]

/-! ## Lemmas on `getPaths` -/

theorem foundPaths_eq (reFrom reTo : String → Bool) (tt : Option String) (docs : List Path) :
    foundPaths reFrom reTo tt docs
      = Query.exec ⟨pathsQuery reFrom reTo tt, some fun p => p.popularity, some 10⟩ docs := rfl

theorem getPaths_invalid (env : Env) (db : Db) (req : PathsRequest)
    (h : truthy req.from_ = false ∨ truthy req.to_ = false) :
    getPaths env db req = (⟨400, .message "From and to parameters are required"⟩, db) := by
  unfold getPaths
  rcases hf : req.from_ with _ | f <;> rcases ht : req.to_ with _ | t <;> simp
  intro hf' ht'
  rcases h with h | h
  · rw [hf] at h; simp [truthy] at h; exact absurd h hf'
  · rw [ht] at h; simp [truthy] at h; exact absurd h ht'

/-- The outcomes of `getPaths` on a request that passes the parameter check. -/
theorem getPaths_valid (env : Env) (db : Db) (req : PathsRequest) (f t : String)
    (hf : req.from_ = some f) (ht : req.to_ = some t) (hf' : f ≠ "") (ht' : t ≠ "") :
    (∃ e, getPaths env db req = (serverError e, db)
        ∧ (newRegExp env f = .error e ∨ newRegExp env t = .error e))
    ∨ ∃ reFrom reTo, newRegExp env f = .ok reFrom ∧ newRegExp env t = .ok reTo ∧
      ((∃ e, env.fault db.log.length = some e
          ∧ getPaths env db req = (serverError e, { db with log := db.log ++ [.pathFind] }))
      ∨ (env.fault db.log.length = none ∧ foundPaths reFrom reTo req.transportType db.paths = []
          ∧ getPaths env db req = (⟨200, .paths []⟩, { db with log := db.log ++ [.pathFind] }))
      ∨ (∃ e, env.fault db.log.length = none
          ∧ foundPaths reFrom reTo req.transportType db.paths ≠ []
          ∧ env.fault (db.log.length + 1) = some e
          ∧ getPaths env db req
            = (serverError e, { db with log := db.log ++ [.pathFind] ++ [.pathUpdateMany] }))
      ∨ (env.fault db.log.length = none
          ∧ foundPaths reFrom reTo req.transportType db.paths ≠ []
          ∧ env.fault (db.log.length + 1) = none
          ∧ getPaths env db req
            = (⟨200, .paths (foundPaths reFrom reTo req.transportType db.paths)⟩,
                { db with
                  paths := db.paths.map
                    (incIfReturned (foundPaths reFrom reTo req.transportType db.paths))
                  log := db.log ++ [.pathFind] ++ [.pathUpdateMany] }))) := by
  have hstep : getPaths env db req
      = match getPathsBody env db f t req.transportType with
        | (.error e, db1) => (serverError e, db1)
        | (.ok paths, db1) => (⟨200, .paths paths⟩, db1) := by
    unfold getPaths
    rw [hf, ht]
    simp [hf', ht']
  rw [hstep]
  unfold getPathsBody
  rcases hrf : newRegExp env f with e | reFrom
  · exact Or.inl ⟨e, rfl, Or.inl rfl⟩
  rcases hrt : newRegExp env t with e | reTo
  · exact Or.inl ⟨e, rfl, Or.inr rfl⟩
  refine Or.inr ⟨reFrom, reTo, rfl, rfl, ?_⟩
  change _ ∨ _ ∨ _ ∨ _
  unfold pathFind Db.issue
  rcases h1 : env.fault db.log.length with _ | e1
  · simp only []
    by_cases hps : foundPaths reFrom reTo req.transportType db.paths = []
    · refine Or.inr (Or.inl ⟨trivial, hps, ?_⟩)
      have : ((((Query.find (pathsQuery reFrom reTo req.transportType)).sort
          fun p => p.popularity).setLimit 10).exec db.paths) = [] := hps
      simp [this]
    · have hlen : ((((Query.find (pathsQuery reFrom reTo req.transportType)).sort
          fun p => p.popularity).setLimit 10).exec db.paths).length > 0 :=
        List.length_pos.2 hps
      simp only [hlen, if_true]
      unfold pathUpdateMany Db.issue
      simp only [List.length_append, List.length_singleton]
      rcases h2 : env.fault (db.log.length + 1) with _ | e2
      · exact Or.inr (Or.inr (Or.inr ⟨trivial, hps, rfl, rfl⟩))
      · exact Or.inr (Or.inr (Or.inl ⟨e2, trivial, hps, rfl, rfl⟩))
  · exact Or.inl ⟨e1, rfl, rfl⟩

theorem eq_of_id_eq {docs : List Path} (hids : UniqueIds docs) {p r : Path}
    (hp : p ∈ docs) (hr : r ∈ docs) (h : p._id = r._id) : p = r :=
  List.inj_on_of_nodup_map hids hp hr h

theorem mem_foundPaths {reFrom reTo : String → Bool} {tt : Option String} {docs : List Path}
    {p : Path} (h : p ∈ foundPaths reFrom reTo tt docs) :
    p ∈ docs ∧ pathsQuery reFrom reTo tt p = true := by
  rw [foundPaths_eq] at h
  exact List.mem_filter.1 (mem_of_mem_exec h)

theorem incIfReturned_of_mem {returned : List Path} {p : Path} (h : p ∈ returned) :
    incIfReturned returned p = incPopularity p := by
  unfold incIfReturned
  rw [if_pos (List.mem_map.2 ⟨p, h, rfl⟩)]

theorem incIfReturned_of_not_mem {docs returned : List Path} (hids : UniqueIds docs)
    (hsub : ∀ r ∈ returned, r ∈ docs) {p : Path} (hp : p ∈ docs) (h : p ∉ returned) :
    incIfReturned returned p = p := by
  unfold incIfReturned
  rw [if_neg]
  intro hmem
  obtain ⟨r, hr, hid⟩ := List.mem_map.1 hmem
  exact h (eq_of_id_eq hids hp (hsub r hr) hid.symm ▸ hr)

theorem incIfReturned_nil (p : Path) : incIfReturned [] p = p := by
  simp [incIfReturned]

/-- C1, as amended. After `getPaths`, every stored path that is in the
returned list has no field but `popularity` changed, and its popularity is
the Number `popularity + 1`: exactly one more when the popularity is from
`-2 ^ 53` up to, and not including, `2 ^ 53`. Every stored path that is not
in the returned list is unchanged, and the returned paths are stored paths.
The collection is read position by position: `db.paths` before the call
against the paths after it. -/
theorem getPaths_increments_exactly_returned (env : Env) (db : Db) (req : PathsRequest)
    (hids : UniqueIds db.paths) :
    (∀ r ∈ returnedPaths (getPaths env db req).1, r ∈ db.paths) ∧
    List.Forall₂
      (fun p p' =>
        (p ∈ returnedPaths (getPaths env db req).1 →
          p' = { p with popularity := jsAdd p.popularity 1 } ∧
          (-2 ^ 53 ≤ p.popularity → p.popularity < 2 ^ 53 →
            p' = { p with popularity := p.popularity + 1 })) ∧
        (p ∉ returnedPaths (getPaths env db req).1 → p' = p))
      db.paths (getPaths env db req).2.paths := by
  have hnone : ∀ (res : Response) (db' : Db), getPaths env db req = (res, db') →
      returnedPaths res = [] → db'.paths = db.paths →
      (∀ r ∈ returnedPaths (getPaths env db req).1, r ∈ db.paths) ∧
      List.Forall₂
        (fun p p' =>
          (p ∈ returnedPaths (getPaths env db req).1 →
            p' = { p with popularity := jsAdd p.popularity 1 } ∧
            (-2 ^ 53 ≤ p.popularity → p.popularity < 2 ^ 53 →
              p' = { p with popularity := p.popularity + 1 })) ∧
          (p ∉ returnedPaths (getPaths env db req).1 → p' = p))
        db.paths (getPaths env db req).2.paths := by
    intro res db' h hres hpaths
    rw [h]
    simp only [hres, hpaths]
    refine ⟨by simp, List.forall₂_same.2 fun p _ => ⟨by simp, fun _ => rfl⟩⟩
  by_cases hv : truthy req.from_ = false ∨ truthy req.to_ = false
  · exact hnone _ _ (getPaths_invalid env db req hv) rfl rfl
  · have hf : ∃ f, req.from_ = some f ∧ f ≠ "" := by
      rcases h : req.from_ with _ | f
      · exact absurd (Or.inl (by rw [h]; rfl)) hv
      · refine ⟨f, rfl, fun hf => hv (Or.inl ?_)⟩
        rw [h, hf]; rfl
    have ht : ∃ t, req.to_ = some t ∧ t ≠ "" := by
      rcases h : req.to_ with _ | t
      · exact absurd (Or.inr (by rw [h]; rfl)) hv
      · refine ⟨t, rfl, fun ht => hv (Or.inr ?_)⟩
        rw [h, ht]; rfl
    obtain ⟨f, hf, hf'⟩ := hf
    obtain ⟨t, ht, ht'⟩ := ht
    rcases getPaths_valid env db req f t hf ht hf' ht' with
      ⟨e, h, _⟩ | ⟨reFrom, reTo, _, _, h⟩
    · exact hnone _ _ h rfl rfl
    rcases h with ⟨e, _, h⟩ | ⟨_, _, h⟩ | ⟨e, _, _, _, h⟩ | ⟨_, _, _, h⟩
    · exact hnone _ _ h rfl rfl
    · exact hnone _ _ h rfl rfl
    · exact hnone _ _ h rfl rfl
    · rw [h]
      have hsub : ∀ r ∈ foundPaths reFrom reTo req.transportType db.paths, r ∈ db.paths :=
        fun r hr => (mem_foundPaths hr).1
      refine ⟨hsub, ?_⟩
      simp only [returnedPaths]
      rw [List.forall₂_map_right_iff]
      refine List.forall₂_same.2 fun p hp => ⟨fun hmem => ?_, fun hmem => ?_⟩
      · rw [incIfReturned_of_mem hmem]
        exact ⟨rfl, fun hlo hhi => incPopularity_exact hlo hhi⟩
      · exact incIfReturned_of_not_mem hids hsub hp hmem

/-! ### Repeated calls -/

theorem incIfReturned_id (returned : List Path) (p : Path) :
    (incIfReturned returned p)._id = p._id := by
  unfold incIfReturned incPopularity
  split <;> rfl

theorem pathsQuery_incIfReturned (reFrom reTo : String → Bool) (tt : Option String)
    (returned : List Path) (p : Path) :
    pathsQuery reFrom reTo tt (incIfReturned returned p) = pathsQuery reFrom reTo tt p := by
  unfold incIfReturned incPopularity
  split <;> rfl

theorem map_incIfReturned_ids (returned docs : List Path) :
    (docs.map (incIfReturned returned)).map (fun p => p._id) = docs.map fun p => p._id := by
  rw [List.map_map]
  exact List.map_congr_left fun p _ => incIfReturned_id returned p

theorem uniqueIds_map_incIfReturned {docs : List Path} (returned : List Path)
    (hids : UniqueIds docs) : UniqueIds (docs.map (incIfReturned returned)) := by
  unfold UniqueIds
  rw [map_incIfReturned_ids]
  exact hids

theorem uniqueIds_foundPaths {reFrom reTo : String → Bool} {tt : Option String}
    {docs : List Path} (hids : UniqueIds docs) : UniqueIds (foundPaths reFrom reTo tt docs) := by
  unfold UniqueIds
  rw [foundPaths_eq, exec_sort_limit]
  have h1 : ((docs.filter (pathsQuery reFrom reTo tt)).map fun p => p._id).Nodup :=
    List.Nodup.sublist ((List.filter_sublist docs).map _) hids
  have h2 : (((docs.filter (pathsQuery reFrom reTo tt)).insertionSort
      (keyDesc fun p => p.popularity)).map fun p => p._id).Nodup :=
    ((List.perm_insertionSort _ _).map _).nodup_iff.2 h1
  exact List.Nodup.sublist ((List.take_sublist _ _).map _) h2

theorem filter_map_incIfReturned (reFrom reTo : String → Bool) (tt : Option String)
    (returned docs : List Path) :
    (docs.map (incIfReturned returned)).filter (pathsQuery reFrom reTo tt)
      = (docs.filter (pathsQuery reFrom reTo tt)).map (incIfReturned returned) := by
  rw [List.filter_map]
  congr 1
  exact List.filter_congr fun p _ => pathsQuery_incIfReturned reFrom reTo tt returned p

/-- A path that a call returned is returned again, with its new
popularity, by the same query on the updated collection. -/
theorem foundPaths_after_inc {reFrom reTo : String → Bool} {tt : Option String}
    {docs : List Path} (hids : UniqueIds docs) {p : Path}
    (hp : p ∈ foundPaths reFrom reTo tt docs)
    (hlo : -2 ^ 53 ≤ p.popularity) (hhi : p.popularity < 2 ^ 53) :
    incPopularity p ∈ foundPaths reFrom reTo tt
      (docs.map (incIfReturned (foundPaths reFrom reTo tt docs))) := by
  by_contra hnot
  have hsub : ∀ r ∈ foundPaths reFrom reTo tt docs, r ∈ docs := fun r hr => (mem_foundPaths hr).1
  have hpL : p ∈ docs.filter (pathsQuery reFrom reTo tt) := by
    rw [foundPaths_eq] at hp; exact mem_of_mem_exec hp
  have hfil := filter_map_incIfReturned reFrom reTo tt (foundPaths reFrom reTo tt docs) docs
  -- the updated `p` is among the new matches
  have hpL' : incPopularity p ∈
      (docs.map (incIfReturned (foundPaths reFrom reTo tt docs))).filter
        (pathsQuery reFrom reTo tt) := by
    rw [hfil]
    exact List.mem_map.2 ⟨p, hpL, incIfReturned_of_mem hp⟩
  -- both results have the same length
  have hlen : (foundPaths reFrom reTo tt
      (docs.map (incIfReturned (foundPaths reFrom reTo tt docs)))).length
      = (foundPaths reFrom reTo tt docs).length := by
    rw [foundPaths_eq, foundPaths_eq, exec_length, exec_length, ← foundPaths_eq, hfil,
      List.length_map]
  -- every new result is the update of an old result other than `p`
  have hfrom : ∀ y ∈ foundPaths reFrom reTo tt
      (docs.map (incIfReturned (foundPaths reFrom reTo tt docs))),
      y._id ∈ ((foundPaths reFrom reTo tt docs).map fun r => r._id).erase p._id := by
    intro y hy
    have hyL : y ∈ (docs.map (incIfReturned (foundPaths reFrom reTo tt docs))).filter
        (pathsQuery reFrom reTo tt) := by
      rw [foundPaths_eq] at hy; exact mem_of_mem_exec hy
    have hkey : (incPopularity p).popularity ≤ y.popularity := by
      rw [foundPaths_eq] at hnot hy
      exact exec_top (fun p => p.popularity) hpL' hnot hy
    rw [hfil] at hyL
    obtain ⟨x, hxL, hxy⟩ := List.mem_map.1 hyL
    have hxdocs : x ∈ docs := (List.mem_filter.1 hxL).1
    have hxps : x ∈ foundPaths reFrom reTo tt docs := by
      by_contra hx
      have hxy' : y = x := by rw [← hxy, incIfReturned_of_not_mem hids hsub hxdocs hx]
      have hle : x.popularity ≤ p.popularity := by
        rw [foundPaths_eq] at hx hp
        exact exec_top (fun p => p.popularity) hxL hx hp
      rw [hxy'] at hkey
      have : (incPopularity p).popularity = p.popularity + 1 := by
        rw [incPopularity_exact hlo hhi]
      omega
    have hne : x._id ≠ p._id := by
      intro hid
      have hxp : x = p := eq_of_id_eq hids hxdocs (hsub p hp) hid
      apply hnot
      rw [← incIfReturned_of_mem hp, ← hxp, hxy]
      exact hy
    have hyid : y._id = x._id := by rw [← hxy, incIfReturned_id]
    rw [hyid]
    exact (List.mem_erase_of_ne hne).2 (List.mem_map.2 ⟨x, hxps, rfl⟩)
  have hnodup : ((foundPaths reFrom reTo tt
      (docs.map (incIfReturned (foundPaths reFrom reTo tt docs)))).map fun r => r._id).Nodup :=
    uniqueIds_foundPaths (uniqueIds_map_incIfReturned _ hids)
  have hle := (List.subperm_of_subset hnodup (fun i hi => by
    obtain ⟨y, hy, rfl⟩ := List.mem_map.1 hi
    exact hfrom y hy)).length_le
  have hpid : p._id ∈ (foundPaths reFrom reTo tt docs).map fun r => r._id :=
    List.mem_map.2 ⟨p, hp, rfl⟩
  rw [List.length_map, hlen, List.length_erase_of_mem hpid, List.length_map] at hle
  have hpos : 0 < (foundPaths reFrom reTo tt docs).length := List.length_pos_of_mem hp
  omega

/-- Without faults, a request that passes the check and whose patterns
compile is answered with the found paths, and these are incremented. -/
theorem getPaths_ok {env : Env} (hnf : NoFault env) (db : Db) {req : PathsRequest}
    {f t : String} (hf : req.from_ = some f) (ht : req.to_ = some t) (hf' : f ≠ "")
    (ht' : t ≠ "") {reFrom reTo : String → Bool} (hrf : newRegExp env f = .ok reFrom)
    (hrt : newRegExp env t = .ok reTo) :
    (getPaths env db req).1 = ⟨200, .paths (foundPaths reFrom reTo req.transportType db.paths)⟩ ∧
    (getPaths env db req).2.paths
      = db.paths.map (incIfReturned (foundPaths reFrom reTo req.transportType db.paths)) := by
  rcases getPaths_valid env db req f t hf ht hf' ht' with
    ⟨e, _, h | h⟩ | ⟨rf, rt, hrf', hrt', h⟩
  · rw [hrf] at h; cases h
  · rw [hrt] at h; cases h
  · obtain rfl : reFrom = rf := by rw [hrf] at hrf'; cases hrf'; rfl
    obtain rfl : reTo = rt := by rw [hrt] at hrt'; cases hrt'; rfl
    rcases h with ⟨e, h, _⟩ | ⟨_, hnil, h⟩ | ⟨e, _, _, h, _⟩ | ⟨_, _, _, h⟩
    · rw [hnf] at h; cases h
    · rw [h, hnil]
      refine ⟨rfl, ?_⟩
      simp only []
      rw [List.map_congr_left fun p _ => incIfReturned_nil p, List.map_id']
    · rw [hnf] at h; cases h
    · rw [h]
      exact ⟨rfl, rfl⟩

/-- A non-empty answer comes from the successful branch. -/
theorem getPaths_returned {env : Env} {db : Db} {req : PathsRequest} {p : Path}
    (hp : p ∈ returnedPaths (getPaths env db req).1) :
    ∃ f t reFrom reTo, req.from_ = some f ∧ req.to_ = some t ∧ f ≠ "" ∧ t ≠ "" ∧
      newRegExp env f = .ok reFrom ∧ newRegExp env t = .ok reTo ∧
      returnedPaths (getPaths env db req).1 = foundPaths reFrom reTo req.transportType db.paths ∧
      (getPaths env db req).2.paths
        = db.paths.map (incIfReturned (foundPaths reFrom reTo req.transportType db.paths)) := by
  by_cases hv : truthy req.from_ = false ∨ truthy req.to_ = false
  · rw [getPaths_invalid env db req hv] at hp
    simp [returnedPaths] at hp
  · have hf : ∃ f, req.from_ = some f ∧ f ≠ "" := by
      rcases h : req.from_ with _ | f
      · exact absurd (Or.inl (by rw [h]; rfl)) hv
      · refine ⟨f, rfl, fun hf => hv (Or.inl ?_)⟩
        rw [h, hf]; rfl
    have ht : ∃ t, req.to_ = some t ∧ t ≠ "" := by
      rcases h : req.to_ with _ | t
      · exact absurd (Or.inr (by rw [h]; rfl)) hv
      · refine ⟨t, rfl, fun ht => hv (Or.inr ?_)⟩
        rw [h, ht]; rfl
    obtain ⟨f, hf, hf'⟩ := hf
    obtain ⟨t, ht, ht'⟩ := ht
    rcases getPaths_valid env db req f t hf ht hf' ht' with
      ⟨e, h, _⟩ | ⟨reFrom, reTo, hrf, hrt, h⟩
    · rw [h] at hp; simp [returnedPaths, serverError] at hp
    rcases h with ⟨e, _, h⟩ | ⟨_, _, h⟩ | ⟨e, _, _, _, h⟩ | ⟨_, _, _, h⟩
    · rw [h] at hp; simp [returnedPaths, serverError] at hp
    · rw [h] at hp; simp [returnedPaths] at hp
    · rw [h] at hp; simp [returnedPaths, serverError] at hp
    · exact ⟨f, t, reFrom, reTo, hf, ht, hf', ht', hrf, hrt, by rw [h]; rfl, by rw [h]⟩

/-- One call keeps a returned path in the answer of the next call. -/
theorem getPaths_returned_again {env : Env} (hnf : NoFault env) {db : Db} {req : PathsRequest}
    (hids : UniqueIds db.paths) {p : Path} (hp : p ∈ returnedPaths (getPaths env db req).1)
    (hlo : -2 ^ 53 ≤ p.popularity) (hhi : p.popularity < 2 ^ 53) :
    UniqueIds (getPaths env db req).2.paths ∧
    incPopularity p ∈ returnedPaths (getPaths env (getPaths env db req).2 req).1 := by
  obtain ⟨f, t, reFrom, reTo, hf, ht, hf', ht', hrf, hrt, hret, hpaths⟩ := getPaths_returned hp
  rw [hret] at hp
  refine ⟨by rw [hpaths]; exact uniqueIds_map_incIfReturned _ hids, ?_⟩
  rw [(getPaths_ok hnf (getPaths env db req).2 hf ht hf' ht' hrf hrt).1, hpaths]
  exact foundPaths_after_inc hids hp hlo hhi

theorem mem_paths_of_returned {env : Env} {db : Db} {req : PathsRequest} {p : Path}
    (hp : p ∈ returnedPaths (getPaths env db req).1) : p ∈ db.paths := by
  obtain ⟨f, t, reFrom, reTo, _, _, _, _, _, _, hret, _⟩ := getPaths_returned hp
  rw [hret] at hp
  exact (mem_foundPaths hp).1

theorem returned_after_calls {env : Env} (hnf : NoFault env) (req : PathsRequest) (N : Nat) :
    ∀ (db : Db) (p : Path), UniqueIds db.paths → p ∈ returnedPaths (getPaths env db req).1 →
      -2 ^ 53 ≤ p.popularity → p.popularity + N ≤ 2 ^ 53 →
      { p with popularity := p.popularity + N } ∈ (getPathsTimes env req N db).paths := by
  induction N with
  | zero =>
    intro db p _ hp _ _
    have : ({ p with popularity := p.popularity + ((0 : Nat) : Int) } : Path) = p := by
      cases p; simp
    rw [this]
    exact mem_paths_of_returned hp
  | succ n ih =>
    intro db p hids hp hlo hhi
    have hhi1 : p.popularity < 2 ^ 53 := by
      push_cast at hhi
      omega
    obtain ⟨hids', hp'⟩ := getPaths_returned_again hnf hids hp hlo hhi1
    have hpop : (incPopularity p).popularity = p.popularity + 1 := by
      rw [incPopularity_exact hlo hhi1]
    have h := ih (getPaths env db req).2 (incPopularity p) hids' hp'
      (by rw [hpop]; omega) (by rw [hpop]; push_cast at hhi; omega)
    have heq : ({ incPopularity p with popularity := (incPopularity p).popularity + (n : Int) }
        : Path) = { p with popularity := p.popularity + ((n + 1 : Nat) : Int) } := by
      rw [incPopularity_exact hlo hhi1]
      cases p
      simp only [Path.mk.injEq, true_and, and_true]
      push_cast
      ring
    rw [heq] at h
    exact h

theorem matchesRequest_eq {env : Env} {req : PathsRequest} {f t : String}
    (hf : req.from_ = some f) (ht : req.to_ = some t) (hf' : f ≠ "") (ht' : t ≠ "")
    {reFrom reTo : String → Bool} (hrf : newRegExp env f = .ok reFrom)
    (hrt : newRegExp env t = .ok reTo) :
    matchesRequest env req = pathsQuery reFrom reTo req.transportType := by
  funext p
  unfold matchesRequest
  rw [hf, ht]
  simp [hf', ht', hrf, hrt]

theorem matchesRequest_true {env : Env} {req : PathsRequest} {p : Path}
    (h : matchesRequest env req p = true) :
    ∃ f t reFrom reTo, req.from_ = some f ∧ req.to_ = some t ∧ f ≠ "" ∧ t ≠ "" ∧
      newRegExp env f = .ok reFrom ∧ newRegExp env t = .ok reTo := by
  unfold matchesRequest at h
  rcases hf : req.from_ with _ | f
  · rw [hf] at h; simp at h
  rcases ht : req.to_ with _ | t
  · rw [hf, ht] at h; simp at h
  rw [hf, ht] at h
  by_cases he : f = "" ∨ t = ""
  · simp [he] at h
  · simp only [he, if_false] at h
    rcases hrf : newRegExp env f with e | reFrom
    · rw [hrf] at h; simp at h
    rcases hrt : newRegExp env t with e | reTo
    · rw [hrf, hrt] at h; simp at h
    exact ⟨f, t, reFrom, reTo, rfl, rfl, fun h' => he (Or.inl h'), fun h' => he (Or.inr h'),
      hrf, hrt⟩

/-- C2, as amended. With a store that does not fail: a path that the first
of `N` identical sequential `getPaths` calls returns, and whose popularity
is at least `-2 ^ 53` and with `N` added at most `2 ^ 53`, has popularity
equal to its initial value plus `N` after the `N` calls, all its other
fields unchanged; when at most ten stored paths match the request, this
holds of every matching path. -/
theorem getPaths_popularity_after_calls (env : Env) (hnf : NoFault env) (db : Db)
    (req : PathsRequest) (hids : UniqueIds db.paths) (N : Nat) :
    (∀ p ∈ returnedPaths (getPaths env db req).1,
      -2 ^ 53 ≤ p.popularity → p.popularity + N ≤ 2 ^ 53 →
      { p with popularity := p.popularity + N } ∈ (getPathsTimes env req N db).paths) ∧
    ((db.paths.filter (matchesRequest env req)).length ≤ 10 →
      ∀ p ∈ db.paths, matchesRequest env req p = true →
        -2 ^ 53 ≤ p.popularity → p.popularity + N ≤ 2 ^ 53 →
        { p with popularity := p.popularity + N } ∈ (getPathsTimes env req N db).paths) := by
  refine ⟨fun p hp hlo hhi => returned_after_calls hnf req N db p hids hp hlo hhi,
    fun hlen p hp hm hlo hhi => ?_⟩
  refine returned_after_calls hnf req N db p hids ?_ hlo hhi
  obtain ⟨f, t, reFrom, reTo, hf, ht, hf', ht', hrf, hrt⟩ := matchesRequest_true hm
  rw [matchesRequest_eq hf ht hf' ht' hrf hrt] at hlen hm
  rw [(getPaths_ok hnf db hf ht hf' ht' hrf hrt).1]
  change p ∈ foundPaths reFrom reTo req.transportType db.paths
  rw [foundPaths_eq]
  exact (exec_perm hlen).mem_iff.2 (List.mem_filter.2 ⟨hp, hm⟩)

set_option maxRecDepth 100000 in
/-- Witness of C1 on the sample collection, whose first path is returned
and has popularity 5. -/
theorem getPaths_increments_exactly_returned_witness :
    UniqueIds sampleDb.paths ∧
    mkPath 1 "Paris" "Rome" 5 ∈ returnedPaths (getPaths plainEnv sampleDb parisRome).1 ∧
    mkPath 1 "Paris" "Rome" 6 ∈ (getPaths plainEnv sampleDb parisRome).2.paths ∧
    mkPath 3 "Berlin" "Prague" 1 ∈ (getPaths plainEnv sampleDb parisRome).2.paths ∧
    ((∀ r ∈ returnedPaths (getPaths plainEnv sampleDb parisRome).1, r ∈ sampleDb.paths) ∧
    List.Forall₂
      (fun p p' =>
        (p ∈ returnedPaths (getPaths plainEnv sampleDb parisRome).1 →
          p' = { p with popularity := jsAdd p.popularity 1 } ∧
          (-2 ^ 53 ≤ p.popularity → p.popularity < 2 ^ 53 →
            p' = { p with popularity := p.popularity + 1 })) ∧
        (p ∉ returnedPaths (getPaths plainEnv sampleDb parisRome).1 → p' = p))
      sampleDb.paths (getPaths plainEnv sampleDb parisRome).2.paths) :=
  ⟨by decide, by decide, by decide, by decide,
    getPaths_increments_exactly_returned plainEnv sampleDb parisRome (by decide)⟩

set_option maxRecDepth 100000 in
/-- C1 as stated fails where a Number cannot count up: a returned path of
popularity `2 ^ 53` has the same popularity after the call, not one more,
while the other returned path goes from 5 to 6. -/
theorem getPaths_saturated_not_incremented :
    UniqueIds saturatedDb.paths ∧
    saturated ∈ saturatedDb.paths ∧
    saturated ∈ returnedPaths (getPaths plainEnv saturatedDb parisRome).1 ∧
    (getPaths plainEnv saturatedDb parisRome).2.paths = [saturated, mkPath 8 "Paris" "Rome" 6] ∧
    { saturated with popularity := saturated.popularity + 1 }
      ∉ (getPaths plainEnv saturatedDb parisRome).2.paths := by
  decide

set_option maxRecDepth 100000 in
/-- Witness of C2 on the sample collection, for three calls. -/
theorem getPaths_popularity_after_calls_witness :
    NoFault plainEnv ∧ UniqueIds sampleDb.paths ∧
    mkPath 1 "Paris" "Rome" 5 ∈ returnedPaths (getPaths plainEnv sampleDb parisRome).1 ∧
    mkPath 1 "Paris" "Rome" 8 ∈ (getPathsTimes plainEnv parisRome 3 sampleDb).paths ∧
    ((∀ p ∈ returnedPaths (getPaths plainEnv sampleDb parisRome).1,
      -2 ^ 53 ≤ p.popularity → p.popularity + (3 : Nat) ≤ 2 ^ 53 →
      { p with popularity := p.popularity + (3 : Nat) }
        ∈ (getPathsTimes plainEnv parisRome 3 sampleDb).paths) ∧
    ((sampleDb.paths.filter (matchesRequest plainEnv parisRome)).length ≤ 10 →
      ∀ p ∈ sampleDb.paths, matchesRequest plainEnv parisRome p = true →
        -2 ^ 53 ≤ p.popularity → p.popularity + (3 : Nat) ≤ 2 ^ 53 →
        { p with popularity := p.popularity + (3 : Nat) }
          ∈ (getPathsTimes plainEnv parisRome 3 sampleDb).paths)) :=
  ⟨fun _ => rfl, by decide, by decide, by decide,
    getPaths_popularity_after_calls plainEnv (fun _ => rfl) sampleDb parisRome (by decide) 3⟩

set_option maxRecDepth 100000 in
/-- C2 as stated fails: of eleven stored paths that all match `paris`/`rom`,
the least popular matches on every call, is not among the ten returned,
and keeps its popularity 10 after one call instead of reaching 11. It
fails as well where a Number cannot count up: a matching path of
popularity `2 ^ 53`, one of two stored paths, has the same popularity
after one call. -/
theorem getPaths_match_beyond_limit_not_incremented :
    UniqueIds elevenPaths.paths ∧
    mkPath 10 "Paris" "Rome" 10 ∈ elevenPaths.paths ∧
    matchesRequest plainEnv parisRome (mkPath 10 "Paris" "Rome" 10) = true ∧
    mkPath 10 "Paris" "Rome" 10 ∈ (getPathsTimes plainEnv parisRome 1 elevenPaths).paths ∧
    mkPath 10 "Paris" "Rome" (10 + 1) ∉ (getPathsTimes plainEnv parisRome 1 elevenPaths).paths ∧
    UniqueIds saturatedDb.paths ∧
    saturated ∈ saturatedDb.paths ∧
    matchesRequest plainEnv parisRome saturated = true ∧
    saturated ∈ (getPathsTimes plainEnv parisRome 1 saturatedDb).paths ∧
    { saturated with popularity := saturated.popularity + 1 }
      ∉ (getPathsTimes plainEnv parisRome 1 saturatedDb).paths := by
  decide

/-! ## Lemmas on the regular expressions of literal strings -/

theorem matchHere_literal (fold : Char → Char) :
    ∀ (pat subject : List Char), (∀ c ∈ pat, c ≠ '.') →
      (matchHere fold pat subject = true ↔
        pat.map (canonicalize fold) <+: subject.map (canonicalize fold))
  | [], _, _ => by simp [matchHere]
  | a :: as, [], _ => by simp [matchHere]
  | a :: as, d :: ds, h => by
    have ha : a ≠ '.' := h a (List.mem_cons_self _ _)
    have ih := matchHere_literal fold as ds fun c hc => h c (List.mem_cons_of_mem _ hc)
    simp only [matchHere, atomMatches, if_neg ha, Bool.and_eq_true, beq_iff_eq, List.map_cons,
      List.cons_prefix_cons, ih]

theorem searchFrom_literal (fold : Char → Char) (pat : List Char) (h : ∀ c ∈ pat, c ≠ '.') :
    ∀ subject : List Char, searchFrom fold pat subject = true ↔
      pat.map (canonicalize fold) <:+: subject.map (canonicalize fold)
  | [] => by
    rw [searchFrom, matchHere_literal fold pat [] h]
    simp
  | d :: ds => by
    rw [searchFrom, Bool.or_eq_true, matchHere_literal fold pat (d :: ds) h,
      searchFrom_literal fold pat h ds, List.map_cons, List.infix_cons_iff]

theorem isLiteral_inFragment {s : String} (h : isLiteral s = true) : inFragment s = true := by
  unfold isLiteral at h
  unfold inFragment
  rw [List.all_eq_true] at h ⊢
  intro c hc
  rw [Bool.or_eq_true]
  exact Or.inr (h c hc)

theorem isLiteral_no_dot {s : String} (h : isLiteral s = true) : ∀ c ∈ s.toList, c ≠ '.' := by
  unfold isLiteral at h
  rw [List.all_eq_true] at h
  intro c hc hdot
  have := h c hc
  rw [hdot] at this
  revert this
  decide

/-- The regular expression of a literal string tests for the string as a
substring, letter case apart. -/
theorem newRegExp_literal (env : Env) {source : String} (h : isLiteral source = true) :
    ∃ re, newRegExp env source = .ok re ∧
      ∀ subject, re subject = true ↔ ContainsIgnoringCase env.fold subject source := by
  refine ⟨fun subject => searchFrom env.fold source.toList subject.toList, ?_, fun subject => ?_⟩
  · unfold newRegExp
    rw [if_pos (isLiteral_inFragment h)]
  · exact searchFrom_literal env.fold source.toList (isLiteral_no_dot h) subject.toList

/-- C3, as amended. For non-empty `from` and `to` without any regular
expression syntax character, a path satisfies the filter of `getPaths`
exactly when its `from` contains `from` and its `to` contains `to` as
substrings, letter case apart (and, when a non-empty `transportType` is
given, it has a transport option of that type). -/
theorem getPaths_filter_literal_iff (env : Env) (req : PathsRequest) (f t : String)
    (hf : req.from_ = some f) (ht : req.to_ = some t) (hf' : f ≠ "") (ht' : t ≠ "")
    (hlf : isLiteral f = true) (hlt : isLiteral t = true) (p : Path) :
    matchesRequest env req p = true ↔
      ContainsIgnoringCase env.fold p.from_ f ∧ ContainsIgnoringCase env.fold p.to_ t ∧
      ∀ tt, req.transportType = some tt → tt ≠ "" → ∃ o ∈ p.transportOptions, o.type = tt := by
  obtain ⟨reFrom, hrf, hfrom⟩ := newRegExp_literal env hlf
  obtain ⟨reTo, hrt, hto⟩ := newRegExp_literal env hlt
  rw [matchesRequest_eq hf ht hf' ht' hrf hrt]
  unfold pathsQuery baseQuery
  rcases htt : req.transportType with _ | tt
  · simp [hfrom, hto]
  · by_cases he : tt = ""
    · simp [he, hfrom, hto]
    · simp [he, hfrom, hto, and_assoc]

/-- Witness of C3: `paris`/`rom` against the path from Paris to Rome. -/
theorem getPaths_filter_literal_iff_witness :
    parisRome.from_ = some "paris" ∧ parisRome.to_ = some "rom" ∧ "paris" ≠ "" ∧ "rom" ≠ "" ∧
    isLiteral "paris" = true ∧ isLiteral "rom" = true ∧
    (matchesRequest plainEnv parisRome (mkPath 1 "Paris" "Rome" 5) = true ↔
      ContainsIgnoringCase plainEnv.fold (mkPath 1 "Paris" "Rome" 5).from_ "paris" ∧
      ContainsIgnoringCase plainEnv.fold (mkPath 1 "Paris" "Rome" 5).to_ "rom" ∧
      ∀ tt, parisRome.transportType = some tt → tt ≠ "" →
        ∃ o ∈ (mkPath 1 "Paris" "Rome" 5).transportOptions, o.type = tt) :=
  ⟨rfl, rfl, by decide, by decide, by decide, by decide,
    getPaths_filter_literal_iff plainEnv parisRome "paris" "rom" rfl rfl (by decide) (by decide)
      (by decide) (by decide) (mkPath 1 "Paris" "Rome" 5)⟩

set_option maxRecDepth 100000 in
/-- C3 as stated fails: the query text is a pattern. For `from` equal to
`.` the path from Paris satisfies the filter and is returned, although
`Paris` does not contain a full stop. -/
theorem getPaths_filter_dot_matches_any :
    matchesRequest plainEnv dotRome (mkPath 1 "Paris" "Rome" 5) = true ∧
    mkPath 1 "Paris" "Rome" 5 ∈ returnedPaths (getPaths plainEnv sampleDb dotRome).1 ∧
    ¬ ContainsIgnoringCase plainEnv.fold (mkPath 1 "Paris" "Rome" 5).from_ "." := by
  refine ⟨by decide, by decide, ?_⟩
  unfold ContainsIgnoringCase
  decide

/-! ## The answer of `getPaths` -/

/-- C4. With a store that does not fail, a request that passes the check
and whose patterns compile is answered with a list of at most ten stored
matching paths, sorted by popularity in non-increasing order; a matching
path left out is at most as popular as every path returned; and when at
most ten paths match, the answer is all of them. -/
theorem getPaths_top_ten (env : Env) (hnf : NoFault env) (db : Db) (req : PathsRequest)
    (hv : ValidRequest env req) :
    ∃ ps, (getPaths env db req).1 = ⟨200, .paths ps⟩ ∧
      ps.length ≤ 10 ∧
      ps.Pairwise (fun a b => a.popularity ≥ b.popularity) ∧
      (∀ r ∈ ps, r ∈ db.paths ∧ matchesRequest env req r = true) ∧
      (∀ p ∈ db.paths, matchesRequest env req p = true → p ∉ ps →
        ∀ r ∈ ps, p.popularity ≤ r.popularity) ∧
      ((db.paths.filter (matchesRequest env req)).length ≤ 10 →
        ps.Perm (db.paths.filter (matchesRequest env req))) := by
  obtain ⟨f, t, reFrom, reTo, hf, ht, hf', ht', hrf, hrt⟩ := hv
  refine ⟨foundPaths reFrom reTo req.transportType db.paths,
    (getPaths_ok hnf db hf ht hf' ht' hrf hrt).1, ?_⟩
  rw [matchesRequest_eq hf ht hf' ht' hrf hrt, foundPaths_eq]
  refine ⟨exec_length_le _ _ _ _, exec_sorted _ _ _ _, fun r hr => ?_, fun p hp hm hnot r hr => ?_,
    fun hlen => exec_perm hlen⟩
  · exact List.mem_filter.1 (mem_of_mem_exec hr)
  · exact exec_top (fun p => p.popularity) (List.mem_filter.2 ⟨hp, hm⟩) hnot hr

set_option maxRecDepth 100000 in
/-- Witness of C4 on the eleven paths. -/
theorem getPaths_top_ten_witness :
    NoFault plainEnv ∧ ValidRequest plainEnv parisRome ∧
    ∃ ps, (getPaths plainEnv elevenPaths parisRome).1 = ⟨200, .paths ps⟩ ∧
      ps.length ≤ 10 ∧
      ps.Pairwise (fun a b => a.popularity ≥ b.popularity) ∧
      (∀ r ∈ ps, r ∈ elevenPaths.paths ∧ matchesRequest plainEnv parisRome r = true) ∧
      (∀ p ∈ elevenPaths.paths, matchesRequest plainEnv parisRome p = true → p ∉ ps →
        ∀ r ∈ ps, p.popularity ≤ r.popularity) ∧
      ((elevenPaths.paths.filter (matchesRequest plainEnv parisRome)).length ≤ 10 →
        ps.Perm (elevenPaths.paths.filter (matchesRequest plainEnv parisRome))) :=
  ⟨fun _ => rfl, ⟨"paris", "rom", _, _, rfl, rfl, by decide, by decide, rfl, rfl⟩,
    getPaths_top_ten plainEnv (fun _ => rfl) elevenPaths parisRome
      ⟨"paris", "rom", _, _, rfl, rfl, by decide, by decide, rfl, rfl⟩⟩

/-- C6. When `from` or `to` is missing or the empty string, the answer is
status 400 with the message `From and to parameters are required`; the
database, its log of store operations included, is returned as it was, and
the answer is the same whatever the database holds. -/
theorem getPaths_requires_from_and_to (env : Env) (db : Db) (req : PathsRequest)
    (h : req.from_ = none ∨ req.from_ = some "" ∨ req.to_ = none ∨ req.to_ = some "") :
    getPaths env db req = (⟨400, .message "From and to parameters are required"⟩, db) ∧
    ∀ db2, (getPaths env db2 req).1 = (getPaths env db req).1 := by
  have hv : truthy req.from_ = false ∨ truthy req.to_ = false := by
    rcases h with h | h | h | h
    · exact Or.inl (by rw [h]; rfl)
    · exact Or.inl (by rw [h]; rfl)
    · exact Or.inr (by rw [h]; rfl)
    · exact Or.inr (by rw [h]; rfl)
  refine ⟨getPaths_invalid env db req hv, fun db2 => ?_⟩
  rw [getPaths_invalid env db req hv, getPaths_invalid env db2 req hv]

/-- Witness of C6: `to` is the empty string. -/
theorem getPaths_requires_from_and_to_witness :
    ((⟨some "paris", some "", none⟩ : PathsRequest).from_ = none ∨
      (⟨some "paris", some "", none⟩ : PathsRequest).from_ = some "" ∨
      (⟨some "paris", some "", none⟩ : PathsRequest).to_ = none ∨
      (⟨some "paris", some "", none⟩ : PathsRequest).to_ = some "") ∧
    (getPaths plainEnv sampleDb ⟨some "paris", some "", none⟩
        = (⟨400, .message "From and to parameters are required"⟩, sampleDb) ∧
      ∀ db2, (getPaths plainEnv db2 ⟨some "paris", some "", none⟩).1
        = (getPaths plainEnv sampleDb ⟨some "paris", some "", none⟩).1) :=
  ⟨Or.inr (Or.inr (Or.inr rfl)),
    getPaths_requires_from_and_to plainEnv sampleDb ⟨some "paris", some "", none⟩
      (Or.inr (Or.inr (Or.inr rfl)))⟩

/-! ## Transport options -/

/-- The response of `getPaths` to a request that passes the check, as a
function of the patterns, the faults and the found paths. -/
theorem getPaths_fst (env : Env) (db : Db) (req : PathsRequest) (f t : String)
    (hf : req.from_ = some f) (ht : req.to_ = some t) (hf' : f ≠ "") (ht' : t ≠ "") :
    (getPaths env db req).1 =
      match newRegExp env f with
      | .error e => serverError e
      | .ok reFrom =>
        match newRegExp env t with
        | .error e => serverError e
        | .ok reTo =>
          match env.fault db.log.length with
          | some e => serverError e
          | none =>
            if foundPaths reFrom reTo req.transportType db.paths = [] then ⟨200, .paths []⟩
            else
              match env.fault (db.log.length + 1) with
              | some e => serverError e
              | none => ⟨200, .paths (foundPaths reFrom reTo req.transportType db.paths)⟩ := by
  rcases getPaths_valid env db req f t hf ht hf' ht' with
    ⟨e, h, _⟩ | ⟨reFrom, reTo, hrf, hrt, h⟩
  · rw [h]
    have hstep : getPaths env db req
        = match getPathsBody env db f t req.transportType with
          | (.error e, db1) => (serverError e, db1)
          | (.ok paths, db1) => (⟨200, .paths paths⟩, db1) := by
      unfold getPaths
      rw [hf, ht]
      simp [hf', ht']
    rw [hstep] at h
    unfold getPathsBody at h
    rcases hrf : newRegExp env f with e1 | reFrom
    · rw [hrf] at h
      simp only [Prod.mk.injEq] at h
      exact h.1.symm
    · rcases hrt : newRegExp env t with e2 | reTo
      · rw [hrf, hrt] at h
        simp only [Prod.mk.injEq] at h
        exact h.1.symm
      · exfalso
        rename_i hor
        rcases hor with hor | hor
        · rw [hrf] at hor; cases hor
        · rw [hrt] at hor; cases hor
  · rw [hrf, hrt]
    rcases h with ⟨e, hfa, h⟩ | ⟨hfa, hnil, h⟩ | ⟨e, hfa, hne, hfb, h⟩ | ⟨hfa, hne, hfb, h⟩
    · rw [h, hfa]
    · rw [h, hfa]; simp only [hnil, if_true]
    · rw [h, hfa]; simp only [hne, if_false, hfb]
    · rw [h, hfa]; simp only [hne, if_false, hfb]

theorem pathsQuery_clearOptions (reFrom reTo : String → Bool) {tt : Option String}
    (htt : truthy tt = false) (p : Path) :
    pathsQuery reFrom reTo tt (clearOptions p) = pathsQuery reFrom reTo tt p := by
  unfold pathsQuery
  rcases tt with _ | t
  · rfl
  · have : t = "" := by simpa [truthy] using htt
    simp [this, baseQuery, clearOptions]

/-- Without a transport type, finding commutes with forgetting the
transport options. -/
theorem foundPaths_clearOptions (reFrom reTo : String → Bool) {tt : Option String}
    (htt : truthy tt = false) (docs : List Path) :
    (foundPaths reFrom reTo tt docs).map clearOptions
      = foundPaths reFrom reTo tt (docs.map clearOptions) := by
  rw [foundPaths_eq, foundPaths_eq, exec_sort_limit, exec_sort_limit, List.map_take,
    List.map_insertionSort (keyDesc fun p : Path => p.popularity)
      (keyDesc fun p : Path => p.popularity) clearOptions _ (fun a _ b _ => Iff.rfl),
    List.filter_map]
  congr 3
  exact List.filter_congr fun p _ => (pathsQuery_clearOptions reFrom reTo htt p).symm

theorem clearOptions_serverError (e : String) :
    (serverError e).clearOptions = serverError e := rfl

/-- C5, as amended. When `transportType` is given and not the empty
string, every returned path has a transport option of that type (so no
path without one is returned). When `transportType` is missing or the
empty string, the answer does not depend on the transport options: two
databases whose paths agree apart from their transport options get the
same answer, transport options apart. -/
theorem getPaths_transportType (env : Env) (db : Db) (req : PathsRequest) :
    (∀ tt, req.transportType = some tt → tt ≠ "" →
      ∀ r ∈ returnedPaths (getPaths env db req).1, ∃ o ∈ r.transportOptions, o.type = tt) ∧
    (truthy req.transportType = false →
      ∀ db2 : Db, db2.paths.map clearOptions = db.paths.map clearOptions →
        db2.log.length = db.log.length →
        (getPaths env db2 req).1.clearOptions = (getPaths env db req).1.clearOptions) := by
  constructor
  · intro tt htt hne r hr
    obtain ⟨f, t, reFrom, reTo, _, _, _, _, _, _, hret, _⟩ := getPaths_returned hr
    rw [hret] at hr
    have hq := (mem_foundPaths hr).2
    rw [htt] at hq
    unfold pathsQuery at hq
    simp only [bne_iff_ne, ne_eq, hne, not_false_eq_true, if_true, Bool.and_eq_true,
      List.any_eq_true, beq_iff_eq] at hq
    exact hq.2
  · intro htt db2 hpaths hlog
    by_cases hv : truthy req.from_ = false ∨ truthy req.to_ = false
    · rw [getPaths_invalid env db req hv, getPaths_invalid env db2 req hv]
    · have hf : ∃ f, req.from_ = some f ∧ f ≠ "" := by
        rcases h : req.from_ with _ | f
        · exact absurd (Or.inl (by rw [h]; rfl)) hv
        · refine ⟨f, rfl, fun hf => hv (Or.inl ?_)⟩
          rw [h, hf]; rfl
      have ht : ∃ t, req.to_ = some t ∧ t ≠ "" := by
        rcases h : req.to_ with _ | t
        · exact absurd (Or.inr (by rw [h]; rfl)) hv
        · refine ⟨t, rfl, fun ht => hv (Or.inr ?_)⟩
          rw [h, ht]; rfl
      obtain ⟨f, hf, hf'⟩ := hf
      obtain ⟨t, ht, ht'⟩ := ht
      rw [getPaths_fst env db req f t hf ht hf' ht', getPaths_fst env db2 req f t hf ht hf' ht',
        hlog]
      rcases newRegExp env f with e | reFrom
      · rfl
      rcases newRegExp env t with e | reTo
      · rfl
      simp only []
      rcases env.fault db.log.length with _ | e
      swap
      · rfl
      simp only []
      have hfound : (foundPaths reFrom reTo req.transportType db2.paths).map clearOptions
          = (foundPaths reFrom reTo req.transportType db.paths).map clearOptions := by
        rw [foundPaths_clearOptions reFrom reTo htt, foundPaths_clearOptions reFrom reTo htt,
          hpaths]
      by_cases hnil : foundPaths reFrom reTo req.transportType db.paths = []
      · have hnil2 : foundPaths reFrom reTo req.transportType db2.paths = [] := by
          rw [hnil, List.map_nil] at hfound
          exact List.map_eq_nil_iff.1 hfound
        rw [if_pos hnil, if_pos hnil2]
      · have hnil2 : foundPaths reFrom reTo req.transportType db2.paths ≠ [] := by
          intro h
          rw [h, List.map_nil] at hfound
          exact hnil (List.map_eq_nil_iff.1 hfound.symm)
        rw [if_neg hnil, if_neg hnil2]
        rcases env.fault (db.log.length + 1) with _ | e
        · simp only [Response.clearOptions, hfound]
        · rfl

set_option maxRecDepth 100000 in
/-- Witness of C5: a request for trains, and a request without transport
type on two collections that differ in their transport options only. -/
theorem getPaths_transportType_witness :
    (∀ r ∈ returnedPaths (getPaths plainEnv sampleDb byTrain).1,
      ∃ o ∈ r.transportOptions, o.type = "train") ∧
    returnedPaths (getPaths plainEnv sampleDb byTrain).1 ≠ [] ∧
    (getPaths plainEnv sampleDbByBus parisRome).1.clearOptions
      = (getPaths plainEnv sampleDb parisRome).1.clearOptions :=
  ⟨(getPaths_transportType plainEnv sampleDb byTrain).1 "train" rfl (by decide),
    by decide,
    (getPaths_transportType plainEnv sampleDb parisRome).2 rfl sampleDbByBus (by decide) rfl⟩

set_option maxRecDepth 100000 in
/-- C5 as stated fails for a transport type given as the empty string: the
guard `if (transportType)` skips the restriction, and the path from Paris
to Rome is returned although it has no transport option at all. -/
theorem getPaths_empty_transportType_unrestricted :
    emptyTransportType.transportType = some "" ∧
    mkPath 1 "Paris" "Rome" 5 ∈ returnedPaths (getPaths plainEnv sampleDb emptyTransportType).1 ∧
    ¬ ∃ o ∈ (mkPath 1 "Paris" "Rome" 5).transportOptions, o.type = "" := by
  refine ⟨rfl, by decide, ?_⟩
  simp [mkPath]

/-! ## `getPathDetails` -/

theorem find?_id_none {docs : List Path} {oid : ObjectId} (h : ∀ p ∈ docs, p._id ≠ oid) :
    docs.find? (fun p => p._id == oid) = none := by
  rw [List.find?_eq_none]
  intro p hp
  simpa using h p hp

theorem find?_id_some {docs : List Path} (hids : UniqueIds docs) {p : Path} (hp : p ∈ docs) :
    docs.find? (fun q => q._id == p._id) = some p := by
  cases hfind : docs.find? (fun q => q._id == p._id) with
  | none =>
    rw [List.find?_eq_none] at hfind
    exact absurd (by simp) (hfind p hp)
  | some q =>
    have hq : q._id = p._id := by simpa using List.find?_some hfind
    rw [eq_of_id_eq hids (List.mem_of_find?_eq_some hfind) hp hq]

/-- The outcome of `getPathDetails` for an id that denotes a stored path. -/
theorem getPathDetails_found {env : Env} (hnf : NoFault env) {db : Db}
    (hids : UniqueIds db.paths) {p : Path} (hp : p ∈ db.paths) {id : String}
    (hid : castObjectId id = some p._id) :
    getPathDetails env db id
      = (⟨200, .path (incPopularity p)⟩,
          { db with
            paths := db.paths.map fun q =>
              if q._id = p._id then { q with popularity := jsAdd p.popularity 1 } else q
            log := db.log ++ [.pathFindById] ++ [.pathSave] }) := by
  have h1 := hnf db.log.length
  have h2 := hnf (db.log ++ [StoreOp.pathFindById]).length
  unfold getPathDetails pathFindById
  rw [hid]
  simp only [Db.issue, h1, find?_id_some hids hp, pathSave, h2]
  rfl

/-- C7, as amended. For an id that no stored path has, `getPathDetails`
leaves the path collection unchanged; when the id is a well-formed
`ObjectId` (24 hexadecimal digits) and the store does not fail, the answer
is status 404 with the message `Path not found`, after a single read. -/
theorem getPathDetails_not_found (env : Env) (db : Db) (id : String)
    (habsent : ∀ p ∈ db.paths, castObjectId id ≠ some p._id) :
    (getPathDetails env db id).2.paths = db.paths ∧
    (getPathDetails env db id).2.destinations = db.destinations ∧
    ∀ oid, castObjectId id = some oid → env.fault db.log.length = none →
      getPathDetails env db id
        = (⟨404, .message "Path not found"⟩, { db with log := db.log ++ [.pathFindById] }) := by
  unfold getPathDetails pathFindById
  rcases hid : castObjectId id with _ | oid
  · exact ⟨rfl, rfl, fun oid h => by cases h⟩
  · have hnone : db.paths.find? (fun p => p._id == oid) = none :=
      find?_id_none fun p hp h => habsent p hp (by rw [hid, h])
    simp only [Db.issue]
    rcases hfa : env.fault db.log.length with _ | e
    · refine ⟨?_, ?_, fun _ _ _ => ?_⟩ <;> simp only [hnone]
    · refine ⟨?_, ?_, fun _ _ h => ?_⟩
      · simp only []
      · simp only []
      · cases h

/-- Witness of C7: a well-formed id that no sample path has. -/
theorem getPathDetails_not_found_witness :
    (∀ p ∈ sampleDb.paths, castObjectId "0000000000000000000000ff" ≠ some p._id) ∧
    ((getPathDetails plainEnv sampleDb "0000000000000000000000ff").2.paths = sampleDb.paths ∧
    (getPathDetails plainEnv sampleDb "0000000000000000000000ff").2.destinations
      = sampleDb.destinations ∧
    ∀ oid, castObjectId "0000000000000000000000ff" = some oid →
      plainEnv.fault sampleDb.log.length = none →
      getPathDetails plainEnv sampleDb "0000000000000000000000ff"
        = (⟨404, .message "Path not found"⟩,
            { sampleDb with log := sampleDb.log ++ [.pathFindById] })) :=
  ⟨by decide,
    getPathDetails_not_found plainEnv sampleDb "0000000000000000000000ff" (by decide)⟩

/-- C7 as stated fails for an id that is not a well-formed `ObjectId`: no
stored path has the id `abc`, and the answer is the server error of the
`catch` block (status 500), not 404. -/
theorem getPathDetails_malformed_id_server_error :
    (∀ p ∈ sampleDb.paths, castObjectId "abc" ≠ some p._id) ∧
    (getPathDetails plainEnv sampleDb "abc").1.status = 500 ∧
    (getPathDetails plainEnv sampleDb "abc").1 ≠ ⟨404, .message "Path not found"⟩ := by
  decide

/-- C8, as amended. With a store that does not fail, `getPathDetails` on
the id of a stored path `p` whose popularity is from `-2 ^ 53` up to, and
not including, `2 ^ 53` answers with `p` in which only `popularity`
differs, being `p.popularity + 1`; afterwards the collection holds that
same path in the place of `p`, and every other stored path is unchanged. -/
theorem getPathDetails_round_trip (env : Env) (hnf : NoFault env) (db : Db)
    (hids : UniqueIds db.paths) (p : Path) (hp : p ∈ db.paths) (id : String)
    (hid : castObjectId id = some p._id)
    (hlo : -2 ^ 53 ≤ p.popularity) (hhi : p.popularity < 2 ^ 53) :
    (getPathDetails env db id).1 = ⟨200, .path { p with popularity := p.popularity + 1 }⟩ ∧
    { p with popularity := p.popularity + 1 } ∈ (getPathDetails env db id).2.paths ∧
    List.Forall₂
      (fun q q' => (q = p → q' = { p with popularity := p.popularity + 1 }) ∧ (q ≠ p → q' = q))
      db.paths (getPathDetails env db id).2.paths := by
  rw [getPathDetails_found hnf hids hp hid, incPopularity_exact hlo hhi, jsAdd_one hlo hhi]
  refine ⟨rfl, ?_, ?_⟩
  · exact List.mem_map.2 ⟨p, hp, by simp⟩
  · simp only []
    rw [List.forall₂_map_right_iff]
    refine List.forall₂_same.2 fun q hq => ⟨fun h => by simp [h], fun h => ?_⟩
    rw [if_neg fun hid' => h (eq_of_id_eq hids hq hp hid')]

set_option maxRecDepth 100000 in
/-- Witness of C8: the path with three stations and two transport options. -/
theorem getPathDetails_round_trip_witness :
    NoFault plainEnv ∧ UniqueIds expressDb.paths ∧ romeExpress ∈ expressDb.paths ∧
    castObjectId "0000000000000000000000a7" = some romeExpress._id ∧
    -2 ^ 53 ≤ romeExpress.popularity ∧ romeExpress.popularity < 2 ^ 53 ∧
    ((getPathDetails plainEnv expressDb "0000000000000000000000a7").1
        = ⟨200, .path { romeExpress with popularity := romeExpress.popularity + 1 }⟩ ∧
    { romeExpress with popularity := romeExpress.popularity + 1 }
      ∈ (getPathDetails plainEnv expressDb "0000000000000000000000a7").2.paths ∧
    List.Forall₂
      (fun q q' =>
        (q = romeExpress → q' = { romeExpress with popularity := romeExpress.popularity + 1 }) ∧
        (q ≠ romeExpress → q' = q))
      expressDb.paths (getPathDetails plainEnv expressDb "0000000000000000000000a7").2.paths) :=
  ⟨fun _ => rfl, by decide, by decide, by decide, by decide, by decide,
    getPathDetails_round_trip plainEnv (fun _ => rfl) expressDb (by decide) romeExpress
      (by decide) "0000000000000000000000a7" (by decide) (by decide) (by decide)⟩

set_option maxRecDepth 100000 in
/-- C8 as stated fails where a Number cannot count up: for the stored path
of popularity `2 ^ 53` the answer carries that same popularity, not one
more, and the collection is as it was. -/
theorem getPathDetails_saturated_not_incremented :
    UniqueIds saturatedDb.paths ∧ saturated ∈ saturatedDb.paths ∧
    castObjectId "000000000000000000000007" = some saturated._id ∧
    (getPathDetails plainEnv saturatedDb "000000000000000000000007").1
      = ⟨200, .path saturated⟩ ∧
    (getPathDetails plainEnv saturatedDb "000000000000000000000007").1
      ≠ ⟨200, .path { saturated with popularity := saturated.popularity + 1 }⟩ ∧
    (getPathDetails plainEnv saturatedDb "000000000000000000000007").2.paths
      = saturatedDb.paths := by
  decide

/-! ## Destinations -/

/-- C9. For a query that is missing or whose length (the JavaScript
`length`, in UTF-16 code units) is less than 2, `searchDestinations`
answers with status 200 and the empty list; the database, its log of store
operations included, is returned as it was, and the answer is the same
whatever the database holds. The frontend method returns the empty list
for such a query without building a request. -/
theorem searchDestinations_short_query (env : Env) (db : Db) (query : Option String)
    (h : query = none ∨ ∃ q, query = some q ∧ jsLength q < 2) :
    searchDestinations env db query = (⟨200, .destinationSummaries []⟩, db) ∧
    (∀ db2, (searchDestinations env db2 query).1 = (searchDestinations env db query).1) ∧
    ∀ encodeURIComponent, ApiService.searchDestinations encodeURIComponent query = .value [] := by
  rcases h with rfl | ⟨q, rfl, hq⟩
  · exact ⟨rfl, fun _ => rfl, fun _ => rfl⟩
  · refine ⟨?_, fun db2 => ?_, fun enc => ?_⟩
    · unfold searchDestinations
      simp only [hq, or_true, if_true]
    · unfold searchDestinations
      simp only [hq, or_true, if_true]
    · unfold ApiService.searchDestinations
      simp only [hq, or_true, if_true]

/-- Witness of C9: a query of one letter. -/
theorem searchDestinations_short_query_witness :
    (some "p" = none ∨ ∃ q, some "p" = some q ∧ jsLength q < 2) ∧
    (searchDestinations plainEnv nineDestinations (some "p")
        = (⟨200, .destinationSummaries []⟩, nineDestinations) ∧
    (∀ db2, (searchDestinations plainEnv db2 (some "p")).1
        = (searchDestinations plainEnv nineDestinations (some "p")).1) ∧
    ∀ encodeURIComponent, ApiService.searchDestinations encodeURIComponent (some "p") = .value []) :=
  ⟨Or.inr ⟨"p", rfl, by decide⟩,
    searchDestinations_short_query plainEnv nineDestinations (some "p")
      (Or.inr ⟨"p", rfl, by decide⟩)⟩

theorem jsLength_empty : jsLength "" = 0 := rfl

/-- C10. With a successful store read: `searchDestinations` on a query of
length at least 2 answers with the projection of at most ten destinations
matching the text search, in non-increasing order of popularity, none less
popular than a matching destination left out; `getPopularDestinations`
answers with the `min 8 n` most popular of the `n` stored destinations, in
non-increasing order of popularity. -/
theorem destinations_most_popular_first (env : Env) (db : Db)
    (hfault : env.fault db.log.length = none) :
    (∀ q, 2 ≤ jsLength q →
      ∃ ds : List Destination, (searchDestinations env db (some q)).1
          = ⟨200, .destinationSummaries (ds.map select)⟩ ∧
        ds.length ≤ 10 ∧
        ds.Pairwise (fun a b => a.popularity ≥ b.popularity) ∧
        (∀ d ∈ ds, d ∈ db.destinations ∧ env.textSearch q d = true) ∧
        (∀ c ∈ db.destinations, env.textSearch q c = true → c ∉ ds →
          ∀ d ∈ ds, c.popularity ≤ d.popularity) ∧
        ((db.destinations.filter (env.textSearch q)).length ≤ 10 →
          ds.Perm (db.destinations.filter (env.textSearch q)))) ∧
    ∃ ds, (getPopularDestinations env db).1 = ⟨200, .destinations ds⟩ ∧
      ds.length = min 8 db.destinations.length ∧
      ds.Pairwise (fun a b => a.popularity ≥ b.popularity) ∧
      (∀ d ∈ ds, d ∈ db.destinations) ∧
      (∀ c ∈ db.destinations, c ∉ ds → ∀ d ∈ ds, c.popularity ≤ d.popularity) := by
  constructor
  · intro q hq
    have hne : q ≠ "" := by
      intro h
      rw [h, jsLength_empty] at hq
      omega
    refine ⟨Query.exec ⟨env.textSearch q, some fun d => d.popularity, some 10⟩ db.destinations,
      ?_, exec_length_le _ _ _ _, exec_sorted _ _ _ _, fun d hd => ?_, fun c hc hm hnot d hd => ?_,
      fun hlen => exec_perm hlen⟩
    · unfold searchDestinations destinationFind Db.issue
      simp only [hne, false_or, Nat.not_lt.2 hq, if_false, hfault]
      rfl
    · exact List.mem_filter.1 (mem_of_mem_exec hd)
    · exact exec_top (fun d => d.popularity) (List.mem_filter.2 ⟨hc, hm⟩) hnot hd
  · refine ⟨Query.exec ⟨fun _ => true, some fun d => d.popularity, some 8⟩ db.destinations,
      ?_, ?_, exec_sorted _ _ _ _, fun d hd => ?_, fun c hc hnot d hd => ?_⟩
    · unfold getPopularDestinations destinationFind Db.issue
      simp only [hfault]
      rfl
    · rw [exec_length, List.filter_true]
    · exact (List.mem_filter.1 (mem_of_mem_exec hd)).1
    · exact exec_top (fun d => d.popularity) (List.mem_filter.2 ⟨hc, rfl⟩) hnot hd

set_option maxRecDepth 100000 in
/-- Witness of C10 on nine destinations stored in increasing order of
popularity. -/
theorem destinations_most_popular_first_witness :
    plainEnv.fault nineDestinations.log.length = none ∧
    ((∀ q, 2 ≤ jsLength q →
      ∃ ds : List Destination, (searchDestinations plainEnv nineDestinations (some q)).1
          = ⟨200, .destinationSummaries (ds.map select)⟩ ∧
        ds.length ≤ 10 ∧
        ds.Pairwise (fun a b => a.popularity ≥ b.popularity) ∧
        (∀ d ∈ ds, d ∈ nineDestinations.destinations ∧ plainEnv.textSearch q d = true) ∧
        (∀ c ∈ nineDestinations.destinations, plainEnv.textSearch q c = true → c ∉ ds →
          ∀ d ∈ ds, c.popularity ≤ d.popularity) ∧
        ((nineDestinations.destinations.filter (plainEnv.textSearch q)).length ≤ 10 →
          ds.Perm (nineDestinations.destinations.filter (plainEnv.textSearch q)))) ∧
    ∃ ds, (getPopularDestinations plainEnv nineDestinations).1 = ⟨200, .destinations ds⟩ ∧
      ds.length = min 8 nineDestinations.destinations.length ∧
      ds.Pairwise (fun a b => a.popularity ≥ b.popularity) ∧
      (∀ d ∈ ds, d ∈ nineDestinations.destinations) ∧
      (∀ c ∈ nineDestinations.destinations, c ∉ ds →
        ∀ d ∈ ds, c.popularity ≤ d.popularity)) :=
  ⟨rfl, destinations_most_popular_first plainEnv nineDestinations rfl⟩

/-! ## Frame of the destination controller -/

theorem searchDestinations_frame (env : Env) (db : Db) (query : Option String) :
    (searchDestinations env db query).2.destinations = db.destinations ∧
    (searchDestinations env db query).2.paths = db.paths := by
  unfold searchDestinations
  rcases query with _ | q
  · exact ⟨rfl, rfl⟩
  · simp only []
    split
    · exact ⟨rfl, rfl⟩
    · unfold destinationFind Db.issue
      rcases env.fault db.log.length with _ | e <;> exact ⟨rfl, rfl⟩

theorem getPopularDestinations_frame (env : Env) (db : Db) :
    (getPopularDestinations env db).2.destinations = db.destinations ∧
    (getPopularDestinations env db).2.paths = db.paths := by
  unfold getPopularDestinations destinationFind Db.issue
  rcases env.fault db.log.length with _ | e <;> exact ⟨rfl, rfl⟩

theorem getPaths_destinations (env : Env) (db : Db) (req : PathsRequest) :
    (getPaths env db req).2.destinations = db.destinations := by
  by_cases hv : truthy req.from_ = false ∨ truthy req.to_ = false
  · rw [getPaths_invalid env db req hv]
  · have hf : ∃ f, req.from_ = some f ∧ f ≠ "" := by
      rcases h : req.from_ with _ | f
      · exact absurd (Or.inl (by rw [h]; rfl)) hv
      · refine ⟨f, rfl, fun hf => hv (Or.inl ?_)⟩
        rw [h, hf]; rfl
    have ht : ∃ t, req.to_ = some t ∧ t ≠ "" := by
      rcases h : req.to_ with _ | t
      · exact absurd (Or.inr (by rw [h]; rfl)) hv
      · refine ⟨t, rfl, fun ht => hv (Or.inr ?_)⟩
        rw [h, ht]; rfl
    obtain ⟨f, hf, hf'⟩ := hf
    obtain ⟨t, ht, ht'⟩ := ht
    rcases getPaths_valid env db req f t hf ht hf' ht' with
      ⟨e, h, _⟩ | ⟨reFrom, reTo, _, _, h⟩
    · rw [h]
    rcases h with ⟨e, _, h⟩ | ⟨_, _, h⟩ | ⟨e, _, _, _, h⟩ | ⟨_, _, _, h⟩ <;> rw [h]

theorem getPathDetails_destinations (env : Env) (db : Db) (id : String) :
    (getPathDetails env db id).2.destinations = db.destinations := by
  unfold getPathDetails pathFindById
  rcases castObjectId id with _ | oid
  · rfl
  · simp only [Db.issue]
    rcases env.fault db.log.length with _ | e
    · cases hfind : db.paths.find? (fun p => p._id == oid) with
      | none => simp only [hfind]
      | some path =>
        simp only [hfind, pathSave, Db.issue]
        rcases env.fault (db.log ++ [StoreOp.pathFindById]).length with _ | e <;> rfl
    · rfl

/-- C11. For every database and every input, `searchDestinations` and
`getPopularDestinations` return the destination and path collections as
they were, and neither `getPaths` nor `getPathDetails` changes the
destination collection. -/
theorem destination_controller_frame (env : Env) (db : Db) :
    (∀ query, (searchDestinations env db query).2.destinations = db.destinations ∧
      (searchDestinations env db query).2.paths = db.paths) ∧
    ((getPopularDestinations env db).2.destinations = db.destinations ∧
      (getPopularDestinations env db).2.paths = db.paths) ∧
    (∀ req, (getPaths env db req).2.destinations = db.destinations) ∧
    (∀ id, (getPathDetails env db id).2.destinations = db.destinations) :=
  ⟨searchDestinations_frame env db, getPopularDestinations_frame env db,
    getPaths_destinations env db, getPathDetails_destinations env db⟩

/-! ## Lemmas on the search history -/

theorem historyOf_eq {store : UserStore} {userId : ObjectId} {user : User}
    (h : store userId = some user) : historyOf store userId = user.searchHistory := by
  unfold historyOf
  rw [h]

theorem updateHistory_self (store : UserStore) (userId : ObjectId)
    (update : List SearchEntry → List SearchEntry) {user : User} (h : store userId = some user) :
    updateHistory store userId update userId
      = some { user with searchHistory := update user.searchHistory } := by
  unfold updateHistory
  rw [if_pos rfl, h]
  rfl

theorem updateHistory_other (store : UserStore) (userId : ObjectId)
    (update : List SearchEntry → List SearchEntry) {id : ObjectId} (h : id ≠ userId) :
    updateHistory store userId update id = store id := by
  unfold updateHistory
  rw [if_neg h]

theorem historyOf_updateHistory (store : UserStore) (userId : ObjectId)
    (update : List SearchEntry → List SearchEntry) {user : User} (h : store userId = some user) :
    historyOf (updateHistory store userId update) userId = update user.searchHistory :=
  historyOf_eq (updateHistory_self store userId update h)

theorem validationErrors_nil {f t : String} (hf : f ≠ "") (ht : t ≠ "") :
    validationErrors (some f) (some t) = [] := by
  simp [validationErrors, notEmpty, hf, ht]

/-- The branch of `recordSearch` that pushes a new entry. -/
theorem recordSearch_append (env : UserEnv) {store : UserStore} {userId : ObjectId} {user : User}
    (hu : store userId = some user) {f t : String} (hf : f ≠ "") (ht : t ≠ "")
    (now stamp : Int) (newId : ObjectId)
    (hnone : user.searchHistory.find?
      (isRecentDuplicate env (trim f) (trim t) (now - 60 * 60 * 1000)) = none) :
    recordSearch env store userId (some f) (some t) now stamp newId
      = (⟨200, .success "Search added to history"⟩,
          updateHistory store userId fun history =>
            lastN 50 (history ++ [⟨newId, trim f, trim t, stamp⟩])) := by
  unfold recordSearch
  rw [validationErrors_nil hf ht]
  simp only [ne_eq, not_true_eq_false, if_false, Option.getD_some, hu, hnone]

/-- The branch of `recordSearch` that refreshes a recent duplicate. -/
theorem recordSearch_refresh (env : UserEnv) {store : UserStore} {userId : ObjectId} {user : User}
    (hu : store userId = some user) {f t : String} (hf : f ≠ "") (ht : t ≠ "")
    (now stamp : Int) (newId : ObjectId) {duplicate : SearchEntry}
    (hsome : user.searchHistory.find?
      (isRecentDuplicate env (trim f) (trim t) (now - 60 * 60 * 1000)) = some duplicate) :
    recordSearch env store userId (some f) (some t) now stamp newId
      = (⟨200, .success "Search added to history"⟩,
          updateHistory store userId (setSearchedAt duplicate._id stamp)) := by
  unfold recordSearch
  rw [validationErrors_nil hf ht]
  simp only [ne_eq, not_true_eq_false, if_false, Option.getD_some, hu, hsome]

theorem lastN_length_le {α : Type} (n : Nat) (l : List α) : (lastN n l).length ≤ n := by
  unfold lastN
  rw [List.length_drop]
  omega

theorem lastN_of_length_le {α : Type} {n : Nat} {l : List α} (h : l.length ≤ n) :
    lastN n l = l := by
  unfold lastN
  rw [Nat.sub_eq_zero_of_le h, List.drop_zero]

theorem mem_of_mem_lastN {α : Type} {n : Nat} {l : List α} {x : α} (h : x ∈ lastN n l) :
    x ∈ l :=
  List.mem_of_mem_drop h

theorem lastN_append_singleton {α : Type} (l : List α) (e : α) :
    lastN 50 (l ++ [e]) = lastN 49 l ++ [e] := by
  unfold lastN
  rw [List.length_append, List.length_singleton,
    show l.length + 1 - 50 = l.length - 49 by omega,
    List.drop_append_of_le_length (by omega)]

theorem setSearchedAt_length (id : ObjectId) (time : Int) (l : List SearchEntry) :
    (setSearchedAt id time l).length = l.length := by
  induction l with
  | nil => rfl
  | cons s rest ih =>
    unfold setSearchedAt
    split
    · rfl
    · simp [ih]

theorem setSearchedAt_append_last {id : ObjectId} (time : Int) {l : List SearchEntry}
    (h : ∀ x ∈ l, x._id ≠ id) (e : SearchEntry) (he : e._id = id) :
    setSearchedAt id time (l ++ [e]) = l ++ [{ e with searchedAt := time }] := by
  induction l with
  | nil => simp [setSearchedAt, he]
  | cons s rest ih =>
    have hs : s._id ≠ id := h s (List.mem_cons_self _ _)
    have ih' := ih fun x hx => h x (List.mem_cons_of_mem _ hx)
    rw [List.cons_append, setSearchedAt, if_neg hs, ih', List.cons_append]

theorem find?_append_last {α : Type} {p : α → Bool} {l : List α} (h : ∀ x ∈ l, p x = false)
    {e : α} (he : p e = true) : (l ++ [e]).find? p = some e := by
  rw [List.find?_append, List.find?_eq_none.2 fun x hx => by simp [h x hx]]
  simp [he]

theorem find?_none_of_forall {α : Type} {p : α → Bool} {l : List α} (h : ∀ x ∈ l, p x = false) :
    l.find? p = none :=
  List.find?_eq_none.2 fun x hx => by simp [h x hx]

theorem isRecentDuplicate_eq (env : UserEnv) (f t : String) (oneHourAgo : Int)
    (search : SearchEntry) :
    isRecentDuplicate env f t oneHourAgo search
      = (samePair env f t search && decide (search.searchedAt > oneHourAgo)) := rfl

theorem samePair_congr (env : UserEnv) {f t f2 t2 : String}
    (hf : env.toLowerCase f2 = env.toLowerCase f) (ht : env.toLowerCase t2 = env.toLowerCase t)
    (search : SearchEntry) : samePair env f2 t2 search = samePair env f t search := by
  unfold samePair
  rw [hf, ht]

/-! ## Recording a search twice -/

/-- The first recording of a pair that the history does not hold. -/
theorem recordAt_new_pair (env : UserEnv) {store : UserStore} {userId : ObjectId} {user : User}
    (hu : store userId = some user) {f t : String} (hf : f ≠ "") (ht : t ≠ "")
    (hnone : ∀ e ∈ user.searchHistory, samePair env (trim f) (trim t) e = false)
    (time : Int) (newId : ObjectId) :
    recordAt env store userId f t time newId userId
      = some { user with
          searchHistory := lastN 49 user.searchHistory ++ [⟨newId, trim f, trim t, time⟩] } := by
  unfold recordAt
  rw [recordSearch_append env hu hf ht time time newId
    (find?_none_of_forall fun x hx => by rw [isRecentDuplicate_eq, hnone x hx]; rfl)]
  simp only []
  rw [updateHistory_self store userId _ hu, lastN_append_singleton]

/-- C12. For a user whose history holds no entry for the pair (letter case
apart), recording the pair at `time1` and then a pair equal to it up to
letter case at `time2`, less than one hour later, leaves exactly one entry
for the pair; its `searchedAt` is `time2`, and the second call adds no
entry. The pairs are compared as the route compares them, after its
`trim`; the id given to the new entry is not the id of an older entry. -/
theorem recordSearch_twice_within_hour (env : UserEnv) (store : UserStore) (userId : ObjectId)
    (user : User) (hu : store userId = some user) (f t f2 t2 : String)
    (hf : f ≠ "") (ht : t ≠ "") (hf2 : f2 ≠ "") (ht2 : t2 ≠ "")
    (hcf : env.toLowerCase (trim f2) = env.toLowerCase (trim f))
    (hct : env.toLowerCase (trim t2) = env.toLowerCase (trim t))
    (hnone : ∀ e ∈ user.searchHistory, samePair env (trim f) (trim t) e = false)
    (time1 time2 : Int) (hlt : time1 < time2) (hwin : time2 - time1 < 60 * 60 * 1000)
    (id1 id2 : ObjectId) (hfresh : ∀ e ∈ user.searchHistory, e._id ≠ id1) :
    (historyOf (recordAt env (recordAt env store userId f t time1 id1) userId f2 t2 time2 id2)
        userId).filter (samePair env (trim f) (trim t))
      = [⟨id1, trim f, trim t, time2⟩] ∧
    (historyOf (recordAt env (recordAt env store userId f t time1 id1) userId f2 t2 time2 id2)
        userId).length
      = (historyOf (recordAt env store userId f t time1 id1) userId).length := by
  have _ := hlt
  have h1 := recordAt_new_pair env hu hf ht hnone time1 id1
  have hold : ∀ x ∈ lastN 49 user.searchHistory,
      isRecentDuplicate env (trim f2) (trim t2) (time2 - 60 * 60 * 1000) x = false := by
    intro x hx
    rw [isRecentDuplicate_eq, samePair_congr env hcf hct, hnone x (mem_of_mem_lastN hx)]
    rfl
  have hnew : isRecentDuplicate env (trim f2) (trim t2) (time2 - 60 * 60 * 1000)
      ⟨id1, trim f, trim t, time1⟩ = true := by
    rw [isRecentDuplicate_eq, samePair_congr env hcf hct]
    simp only [samePair, beq_self_eq_true, Bool.and_self, Bool.true_and, decide_eq_true_eq]
    omega
  have h2 : recordAt env (recordAt env store userId f t time1 id1) userId f2 t2 time2 id2 userId
      = some { user with
          searchHistory := lastN 49 user.searchHistory ++ [⟨id1, trim f, trim t, time2⟩] } := by
    change (recordSearch env (recordAt env store userId f t time1 id1) userId (some f2) (some t2)
      time2 time2 id2).2 userId = _
    rw [recordSearch_refresh env h1 hf2 ht2 time2 time2 id2 (find?_append_last hold hnew)]
    simp only []
    rw [updateHistory_self _ userId _ h1]
    simp only []
    rw [setSearchedAt_append_last time2
      (fun x hx => hfresh x (mem_of_mem_lastN hx)) ⟨id1, trim f, trim t, time1⟩ rfl]
  rw [historyOf_eq h2, historyOf_eq h1]
  constructor
  · rw [List.filter_append,
      List.filter_eq_nil_iff.2 fun x hx => by simp [hnone x (mem_of_mem_lastN hx)]]
    simp [samePair]
  · simp

/-- C13. For a user whose history has fewer than 49 entries and none for
the pair (letter case apart), recording the pair at `time` and again 61
minutes later appends two entries: the history ends with two entries for
the pair, with `searchedAt` equal to `time` and to `time` plus 61 minutes,
and these are all the entries for the pair. -/
theorem recordSearch_twice_after_hour (env : UserEnv) (store : UserStore) (userId : ObjectId)
    (user : User) (hu : store userId = some user) (f t : String) (hf : f ≠ "") (ht : t ≠ "")
    (hlen : user.searchHistory.length < 49)
    (hnone : ∀ e ∈ user.searchHistory, samePair env (trim f) (trim t) e = false)
    (time : Int) (id1 id2 : ObjectId) :
    historyOf (recordAt env (recordAt env store userId f t time id1) userId f t
        (time + 61 * 60 * 1000) id2) userId
      = user.searchHistory ++
          [⟨id1, trim f, trim t, time⟩, ⟨id2, trim f, trim t, time + 61 * 60 * 1000⟩] ∧
    (historyOf (recordAt env (recordAt env store userId f t time id1) userId f t
        (time + 61 * 60 * 1000) id2) userId).filter (samePair env (trim f) (trim t))
      = [⟨id1, trim f, trim t, time⟩, ⟨id2, trim f, trim t, time + 61 * 60 * 1000⟩] := by
  have h1 := recordAt_new_pair env hu hf ht hnone time id1
  rw [lastN_of_length_le (by omega)] at h1
  have hall : ∀ x ∈ user.searchHistory ++ [⟨id1, trim f, trim t, time⟩],
      isRecentDuplicate env (trim f) (trim t) (time + 61 * 60 * 1000 - 60 * 60 * 1000) x
        = false := by
    intro x hx
    rw [isRecentDuplicate_eq]
    rcases List.mem_append.1 hx with hx | hx
    · rw [hnone x hx]; rfl
    · rw [List.mem_singleton.1 hx]
      simp only [Bool.and_eq_false_imp, decide_eq_false_iff_not]
      intro _
      omega
  have h2 : recordAt env (recordAt env store userId f t time id1) userId f t
      (time + 61 * 60 * 1000) id2 userId
      = some { user with
          searchHistory := user.searchHistory ++
            [⟨id1, trim f, trim t, time⟩, ⟨id2, trim f, trim t, time + 61 * 60 * 1000⟩] } := by
    change (recordSearch env (recordAt env store userId f t time id1) userId (some f) (some t)
      (time + 61 * 60 * 1000) (time + 61 * 60 * 1000) id2).2 userId = _
    rw [recordSearch_append env h1 hf ht _ _ id2 (find?_none_of_forall hall)]
    simp only []
    rw [updateHistory_self _ userId _ h1]
    simp only []
    rw [lastN_of_length_le (by simp; omega)]
    simp
  rw [historyOf_eq h2]
  refine ⟨rfl, ?_⟩
  rw [List.filter_append, List.filter_eq_nil_iff.2 fun x hx => by simp [hnone x hx]]
  simp [samePair]

set_option maxRecDepth 100000 in
/-- Witness of C12: `Lyon`/`Nice` and then `LYON`/`nice` one second later. -/
theorem recordSearch_twice_within_hour_witness :
    oneUser threeSearches 1 = some (mkUser 1 threeSearches) ∧
    "Lyon" ≠ "" ∧ "Nice" ≠ "" ∧ "LYON" ≠ "" ∧ " nice" ≠ "" ∧
    plainUserEnv.toLowerCase (trim "LYON") = plainUserEnv.toLowerCase (trim "Lyon") ∧
    plainUserEnv.toLowerCase (trim " nice") = plainUserEnv.toLowerCase (trim "Nice") ∧
    (∀ e ∈ (mkUser 1 threeSearches).searchHistory,
      samePair plainUserEnv (trim "Lyon") (trim "Nice") e = false) ∧
    (5000 : Int) < 6000 ∧ (6000 : Int) - 5000 < 60 * 60 * 1000 ∧
    (∀ e ∈ (mkUser 1 threeSearches).searchHistory, e._id ≠ 14) ∧
    ((historyOf (recordAt plainUserEnv
        (recordAt plainUserEnv (oneUser threeSearches) 1 "Lyon" "Nice" 5000 14) 1 "LYON" " nice"
          6000 15) 1).filter (samePair plainUserEnv (trim "Lyon") (trim "Nice"))
      = [⟨14, trim "Lyon", trim "Nice", 6000⟩] ∧
    (historyOf (recordAt plainUserEnv
        (recordAt plainUserEnv (oneUser threeSearches) 1 "Lyon" "Nice" 5000 14) 1 "LYON" " nice"
          6000 15) 1).length
      = (historyOf (recordAt plainUserEnv (oneUser threeSearches) 1 "Lyon" "Nice" 5000 14)
          1).length) :=
  ⟨rfl, by decide, by decide, by decide, by decide, by decide, by decide, by decide, by decide,
    by decide, by decide,
    recordSearch_twice_within_hour plainUserEnv (oneUser threeSearches) 1 (mkUser 1 threeSearches)
      rfl "Lyon" "Nice" "LYON" " nice" (by decide) (by decide) (by decide) (by decide)
      (by decide) (by decide) (by decide) 5000 6000 (by decide) (by decide) 14 15 (by decide)⟩

set_option maxRecDepth 100000 in
/-- Witness of C13: `Lyon`/`Nice` at 5000 and 61 minutes later. -/
theorem recordSearch_twice_after_hour_witness :
    oneUser threeSearches 1 = some (mkUser 1 threeSearches) ∧ "Lyon" ≠ "" ∧ "Nice" ≠ "" ∧
    (mkUser 1 threeSearches).searchHistory.length < 49 ∧
    (∀ e ∈ (mkUser 1 threeSearches).searchHistory,
      samePair plainUserEnv (trim "Lyon") (trim "Nice") e = false) ∧
    (historyOf (recordAt plainUserEnv
        (recordAt plainUserEnv (oneUser threeSearches) 1 "Lyon" "Nice" 5000 14) 1 "Lyon" "Nice"
          (5000 + 61 * 60 * 1000) 15) 1
      = (mkUser 1 threeSearches).searchHistory ++
          [⟨14, trim "Lyon", trim "Nice", 5000⟩,
            ⟨15, trim "Lyon", trim "Nice", 5000 + 61 * 60 * 1000⟩] ∧
    (historyOf (recordAt plainUserEnv
        (recordAt plainUserEnv (oneUser threeSearches) 1 "Lyon" "Nice" 5000 14) 1 "Lyon" "Nice"
          (5000 + 61 * 60 * 1000) 15) 1).filter
        (samePair plainUserEnv (trim "Lyon") (trim "Nice"))
      = [⟨14, trim "Lyon", trim "Nice", 5000⟩,
          ⟨15, trim "Lyon", trim "Nice", 5000 + 61 * 60 * 1000⟩]) :=
  ⟨rfl, by decide, by decide, by decide, by decide,
    recordSearch_twice_after_hour plainUserEnv (oneUser threeSearches) 1 (mkUser 1 threeSearches)
      rfl "Lyon" "Nice" (by decide) (by decide) (by decide) (by decide) 5000 14 15⟩

/-! ## The bound of fifty entries -/

theorem updateHistory_bounded {store : UserStore} (hb : Bounded store) (userId : ObjectId)
    (update : List SearchEntry → List SearchEntry)
    (hupdate : ∀ history, history.length ≤ 50 → (update history).length ≤ 50) :
    Bounded (updateHistory store userId update) := by
  intro id user h
  unfold updateHistory at h
  split at h
  · rcases hs : store id with _ | stored
    · rw [hs] at h; cases h
    · rw [hs] at h
      simp only [Option.map_some', Option.some.injEq] at h
      rw [← h]
      exact hupdate _ (hb id stored hs)
  · exact hb id user h

theorem recordSearch_bounded (env : UserEnv) {store : UserStore} (hb : Bounded store)
    (userId : ObjectId) (from_ to_ : Option String) (now stamp : Int) (newId : ObjectId) :
    Bounded (recordSearch env store userId from_ to_ now stamp newId).2 := by
  unfold recordSearch
  split
  · exact hb
  · simp only []
    split
    · exact hb
    · split
      · refine updateHistory_bounded hb userId (setSearchedAt _ stamp) fun history h => ?_
        rw [setSearchedAt_length]
        exact h
      · simp only []
        apply updateHistory_bounded hb
        intro history _
        exact lastN_length_le 50 _

theorem deleteEntry_bounded (env : UserEnv) {store : UserStore} (hb : Bounded store)
    (userId : ObjectId) (searchId : String) : Bounded (deleteEntry env store userId searchId).2 := by
  unfold deleteEntry
  split
  · exact hb
  · split
    · exact hb
    · exact updateHistory_bounded hb userId _ fun history h =>
        le_trans (List.length_filter_le _ _) h

theorem clearHistory_bounded {store : UserStore} (hb : Bounded store) (userId : ObjectId) :
    Bounded (clearHistory store userId).2 :=
  updateHistory_bounded hb userId (fun _ => []) fun _ _ => Nat.zero_le _

theorem runOps_bounded (env : UserEnv) (ops : List HistoryOp) :
    ∀ store : UserStore, Bounded store → Bounded (runOps env store ops) := by
  induction ops with
  | nil => intro store hb; exact hb
  | cons op rest ih =>
    intro store hb
    refine ih _ ?_
    cases op with
    | record userId from_ to_ now stamp newId =>
      exact recordSearch_bounded env hb userId from_ to_ now stamp newId
    | delete userId searchId => exact deleteEntry_bounded env hb userId searchId
    | clear userId => exact clearHistory_bounded hb userId

theorem bounded_oneUser {history : List SearchEntry} (h : history.length ≤ 50) :
    Bounded (oneUser history) := by
  intro id user hu
  unfold oneUser at hu
  split at hu
  · cases hu; exact h
  · cases hu

/-- C14. From a store in which every history has at most fifty entries (an
empty history in particular), every finite sequence of `recordSearch`,
`deleteEntry` and `clearHistory` calls, with any arguments, leads to a
store in which every history has at most fifty entries; and a
`recordSearch` that appends to a history of length fifty leaves a history
of length exactly fifty. -/
theorem history_at_most_fifty (env : UserEnv) (store : UserStore) (hb : Bounded store) :
    (∀ ops, Bounded (runOps env store ops)) ∧
    ∀ userId user f t now stamp newId, store userId = some user →
      user.searchHistory.length = 50 → f ≠ "" → t ≠ "" →
      user.searchHistory.find?
        (isRecentDuplicate env (trim f) (trim t) (now - 60 * 60 * 1000)) = none →
      (historyOf (recordSearch env store userId (some f) (some t) now stamp newId).2
        userId).length = 50 := by
  refine ⟨fun ops => runOps_bounded env ops store hb, ?_⟩
  intro userId user f t now stamp newId hu hlen hf ht hnone
  rw [recordSearch_append env hu hf ht now stamp newId hnone]
  simp only []
  rw [historyOf_updateHistory store userId _ hu]
  unfold lastN
  rw [List.length_drop, List.length_append, List.length_singleton, hlen]

/-- Witness of C14: the store of one user with an empty history. -/
theorem history_at_most_fifty_witness :
    Bounded (oneUser []) ∧
    ((∀ ops, Bounded (runOps plainUserEnv (oneUser []) ops)) ∧
    ∀ userId user f t now stamp newId, oneUser [] userId = some user →
      user.searchHistory.length = 50 → f ≠ "" → t ≠ "" →
      user.searchHistory.find?
        (isRecentDuplicate plainUserEnv (trim f) (trim t) (now - 60 * 60 * 1000)) = none →
      (historyOf (recordSearch plainUserEnv (oneUser []) userId (some f) (some t) now stamp
        newId).2 userId).length = 50) :=
  ⟨bounded_oneUser (Nat.zero_le _),
    history_at_most_fifty plainUserEnv (oneUser []) (bounded_oneUser (Nat.zero_le _))⟩

set_option maxRecDepth 1000000 in
/-- C15 fails on the code. The places are named `p00` to `p51`: lower-case
ASCII letters and digits, which `toLowerCase` leaves as they are, and no two
names alike. After `p00`, `p01` and `p00` again within the hour, the entry
of `p00` is first in storage with `searchedAt` 2 and the entry of `p01`
follows with `searchedAt` 1; when the history is full, the next new search
evicts the entry of `p00` and keeps the entry of `p01`, which has the
smaller `searchedAt`. Histories are shown as pairs of entry id and
`searchedAt`. -/
theorem recordSearch_evicts_refreshed_entry :
    placeName 0 = "p00" ∧ placeName 51 = "p51" ∧
    ((List.range 52).map placeName).Nodup ∧
    (∀ i ∈ List.range 52, ∀ c ∈ (placeName i).toList,
      ('a'.toNat ≤ c.toNat ∧ c.toNat ≤ 'z'.toNat) ∨ ('0'.toNat ≤ c.toNat ∧ c.toNat ≤ '9'.toNat)) ∧
    ((historyOf (runOps plainUserEnv (oneUser []) refreshedFirst) 1).map
        (fun e => e.from_)).take 2 = ["p00", "p01"] ∧
    (historyOf (runOps plainUserEnv (oneUser []) refreshedFirst) 1).map
        (fun e => (e._id, e.searchedAt))
      = (100, 2) :: (101, 1) :: (List.range 48).map (fun i => (103 + i, ((3 + i : Nat) : Int))) ∧
    (historyOf (runOps plainUserEnv (oneUser []) (refreshedFirst ++ [distinctSearch 51])) 1).map
        (fun e => (e._id, e.searchedAt))
      = (101, 1) :: (List.range 49).map (fun i => (103 + i, ((3 + i : Nat) : Int))) := by
  decide

/-! ## Listing the history -/

/-- The answer of `listHistory` for an existing user, a page from 1 and a
limit from 1: the slice of the stored array, then sorted. -/
theorem listHistory_eq (env : UserEnv) {store : UserStore} {userId : ObjectId} {user : User}
    (hu : store userId = some user) {page limit : Int} (hp : 1 ≤ page) (hl : 1 ≤ limit) :
    listHistory env store userId (some page) (some limit)
      = ⟨200, .history
          (((user.searchHistory.drop ((page - 1) * limit).toNat).take limit.toNat).insertionSort
            (keyDesc fun e => e.searchedAt))
          ⟨page, limit,
            ((user.searchHistory.drop ((page - 1) * limit).toNat).take limit.toNat).length⟩⟩ := by
  have hskip : 0 ≤ (page - 1) * limit := mul_nonneg (by omega) (by omega)
  unfold listHistory sliceProjection
  simp only [Option.getD_some, hu, hskip, hl, and_self, if_true, List.length_insertionSort]

/-- C16. For an existing user, every stored history and every page and
limit from 1, `listHistory` answers with a list of entries sorted by
`searchedAt` in non-increasing order. -/
theorem listHistory_sorted (env : UserEnv) (store : UserStore) (userId : ObjectId) (user : User)
    (hu : store userId = some user) (page limit : Int) (hp : 1 ≤ page) (hl : 1 ≤ limit) :
    ∃ entries pagination,
      listHistory env store userId (some page) (some limit)
        = ⟨200, .history entries pagination⟩ ∧
      entries.Pairwise (fun a b => a.searchedAt ≥ b.searchedAt) :=
  ⟨_, _, listHistory_eq env hu hp hl,
    List.sorted_insertionSort (keyDesc fun e : SearchEntry => e.searchedAt) _⟩

/-- Witness of C16: the first page of two entries. -/
theorem listHistory_sorted_witness :
    oneUser threeSearches 1 = some (mkUser 1 threeSearches) ∧ (1 : Int) ≤ 1 ∧ (1 : Int) ≤ 2 ∧
    ∃ entries pagination,
      listHistory plainUserEnv (oneUser threeSearches) 1 (some 1) (some 2)
        = ⟨200, .history entries pagination⟩ ∧
      entries.Pairwise (fun a b => a.searchedAt ≥ b.searchedAt) :=
  ⟨rfl, by decide, by decide,
    listHistory_sorted plainUserEnv (oneUser threeSearches) 1 (mkUser 1 threeSearches) rfl 1 2
      (by decide) (by decide)⟩

set_option maxRecDepth 100000 in
/-- C17 fails on the code. Of three entries stored in the order in which
they were recorded, page 1 with limit 2 is the two oldest entries, sorted;
the page of the whole history sorted newest first is the two newest. -/
theorem listHistory_slices_before_sorting :
    (listHistory plainUserEnv (oneUser threeSearches) 1 (some 1) (some 2)).entries
      = [⟨12, "Berlin", "Prague", 2000⟩, ⟨11, "Paris", "Rome", 1000⟩] ∧
    specPage threeSearches 1 2 = [⟨13, "Oslo", "Bergen", 3000⟩, ⟨12, "Berlin", "Prague", 2000⟩] := by
  decide

set_option maxRecDepth 100000 in
/-- C18 fails on the code. For a stored history of three entries, page 1
with limit 2 reports `pagination.total` 2, the length of the page. -/
theorem listHistory_total_is_page_length :
    (listHistory plainUserEnv (oneUser threeSearches) 1 (some 1) (some 2)).total = some 2 ∧
    (historyOf (oneUser threeSearches) 1).length = 3 := by
  decide

/-! ## Deleting and clearing -/

theorem filter_id_ne_of_nodup {id : ObjectId} :
    ∀ {history : List SearchEntry}, (history.map fun s => s._id).Nodup →
      ∀ (before after : List SearchEntry) (e : SearchEntry), history = before ++ e :: after →
        e._id = id → history.filter (fun s => s._id != id) = before ++ after := by
  intro history hnodup before after e hsplit he
  subst hsplit
  rw [List.map_append, List.map_cons, List.nodup_append] at hnodup
  obtain ⟨_, hright, hdisj⟩ := hnodup
  have hbefore : ∀ x ∈ before, x._id ≠ id := fun x hx hxid =>
    hdisj (List.mem_map.2 ⟨x, hx, rfl⟩) (by rw [hxid, ← he]; exact List.mem_cons_self _ _)
  have hafter : ∀ x ∈ after, x._id ≠ id := fun x hx hxid =>
    (List.nodup_cons.1 hright).1 (by rw [he, ← hxid]; exact List.mem_map.2 ⟨x, hx, rfl⟩)
  rw [List.filter_append, List.filter_cons_of_neg (by simp [he]),
    List.filter_eq_self.2 fun x hx => by simpa using hbefore x hx,
    List.filter_eq_self.2 fun x hx => by simpa using hafter x hx]

/-- C19, as amended. For a `searchId` that is a well-formed `ObjectId` (24
hexadecimal digits): when the user exists and the ids of the history
entries are distinct, `deleteEntry` succeeds and the history becomes the
old one without the entry of that id, the other entries unchanged and in
the same order (so unchanged when no entry has the id); when the user does
not exist the answer is status 404 `User not found` and the store is
unchanged. -/
theorem deleteEntry_removes_entry (env : UserEnv) (store : UserStore) (userId : ObjectId)
    (searchId : String) (id : ObjectId) (hid : castObjectId searchId = some id) :
    (∀ user, store userId = some user → (user.searchHistory.map fun s => s._id).Nodup →
      (deleteEntry env store userId searchId).1 = ⟨200, .success "Search removed from history"⟩ ∧
      (∀ e ∈ user.searchHistory, e._id = id →
        ∃ before after, user.searchHistory = before ++ e :: after ∧
          historyOf (deleteEntry env store userId searchId).2 userId = before ++ after) ∧
      ((∀ e ∈ user.searchHistory, e._id ≠ id) →
        historyOf (deleteEntry env store userId searchId).2 userId = user.searchHistory)) ∧
    (store userId = none → deleteEntry env store userId searchId = (userNotFound, store)) := by
  constructor
  · intro user hu hnodup
    have hrun : deleteEntry env store userId searchId
        = (⟨200, .success "Search removed from history"⟩,
            updateHistory store userId fun history => history.filter fun s => s._id != id) := by
      unfold deleteEntry
      rw [hid]
      simp only [hu]
    rw [hrun]
    simp only []
    rw [historyOf_updateHistory store userId _ hu]
    refine ⟨trivial, fun e he heid => ?_, fun hnone => ?_⟩
    · obtain ⟨before, after, hsplit⟩ := List.append_of_mem he
      exact ⟨before, after, hsplit, filter_id_ne_of_nodup hnodup before after e hsplit heid⟩
    · exact List.filter_eq_self.2 fun x hx => by simpa using hnone x hx
  · intro hu
    unfold deleteEntry
    rw [hid]
    simp only [hu]

set_option maxRecDepth 100000 in
/-- Witness of C19: the entry of id 12 is removed from three entries. -/
theorem deleteEntry_removes_entry_witness :
    castObjectId "00000000000000000000000c" = some 12 ∧
    oneUser threeSearches 1 = some (mkUser 1 threeSearches) ∧
    ((mkUser 1 threeSearches).searchHistory.map fun s => s._id).Nodup ∧
    historyOf (deleteEntry plainUserEnv (oneUser threeSearches) 1 "00000000000000000000000c").2 1
      = [⟨11, "Paris", "Rome", 1000⟩, ⟨13, "Oslo", "Bergen", 3000⟩] ∧
    ((∀ user, oneUser threeSearches 1 = some user →
        (user.searchHistory.map fun s => s._id).Nodup →
      (deleteEntry plainUserEnv (oneUser threeSearches) 1 "00000000000000000000000c").1
        = ⟨200, .success "Search removed from history"⟩ ∧
      (∀ e ∈ user.searchHistory, e._id = 12 →
        ∃ before after, user.searchHistory = before ++ e :: after ∧
          historyOf (deleteEntry plainUserEnv (oneUser threeSearches) 1
            "00000000000000000000000c").2 1 = before ++ after) ∧
      ((∀ e ∈ user.searchHistory, e._id ≠ 12) →
        historyOf (deleteEntry plainUserEnv (oneUser threeSearches) 1
          "00000000000000000000000c").2 1 = user.searchHistory)) ∧
    (oneUser threeSearches 1 = none →
      deleteEntry plainUserEnv (oneUser threeSearches) 1 "00000000000000000000000c"
        = (userNotFound, oneUser threeSearches))) :=
  ⟨by decide, rfl, by decide, by decide,
    deleteEntry_removes_entry plainUserEnv (oneUser threeSearches) 1 "00000000000000000000000c"
      12 (by decide)⟩

set_option maxRecDepth 100000 in
/-- C19 as stated fails for an id that is not a well-formed `ObjectId`: no
entry has the id `abc`, and the answer is the server error of the `catch`
block (status 500), not a success. -/
theorem deleteEntry_malformed_id_server_error :
    (∀ e ∈ threeSearches, castObjectId "abc" ≠ some e._id) ∧
    (deleteEntry plainUserEnv (oneUser threeSearches) 1 "abc").1
      = ⟨500, .failure "Server error while deleting search from history" none⟩ ∧
    historyOf (deleteEntry plainUserEnv (oneUser threeSearches) 1 "abc").2 1 = threeSearches := by
  decide

/-- C20 fails on the code. For a user id that the store does not hold,
`clearHistory` answers with status 200 and the success message. -/
theorem clearHistory_missing_user_succeeds :
    oneUser threeSearches 7 = none ∧
    (clearHistory (oneUser threeSearches) 7).1
      = ⟨200, .success "Search history cleared successfully"⟩ := by
  decide

/-! ## Statistics -/

theorem lookup_cons_ite (key k : String) (c : Nat) (rest : List (String × Nat)) :
    List.lookup key ((k, c) :: rest) = if key = k then some c else List.lookup key rest := by
  rw [List.lookup_cons]
  by_cases h : key = k
  · simp [h]
  · have hb : (key == k) = false := by simpa using h
    simp [hb, h]

theorem lookup_countRoute (route key : String) :
    ∀ acc : List (String × Nat), (countRoute acc route).lookup key
      = if key = route then some ((acc.lookup route).getD 0 + 1) else acc.lookup key
  | [] => by
    by_cases h : key = route <;> simp [countRoute, lookup_cons_ite, h]
  | (k, c) :: rest => by
    have ih := lookup_countRoute route key rest
    by_cases hk : k = route
    · subst hk
      by_cases h : key = k <;> simp [countRoute, lookup_cons_ite, h]
    · by_cases h : key = route
      · subst h
        have hne : ¬ key = k := fun h => hk h.symm
        simp [countRoute, lookup_cons_ite, hk, hne, ih]
      · by_cases h2 : key = k <;> simp [countRoute, lookup_cons_ite, hk, h, h2, ih]

theorem mem_keys_countRoute (route key : String) :
    ∀ acc : List (String × Nat),
      key ∈ (countRoute acc route).map Prod.fst ↔ key ∈ acc.map Prod.fst ∨ key = route
  | [] => by simp [countRoute]
  | (k, c) :: rest => by
    have ih := mem_keys_countRoute route key rest
    by_cases hk : k = route
    · subst hk
      simp only [countRoute, if_true, List.map_cons, List.mem_cons]
      tauto
    · simp only [countRoute, if_neg hk, List.map_cons, List.mem_cons, ih]
      tauto

theorem nodup_keys_countRoute (route : String) :
    ∀ acc : List (String × Nat), (acc.map Prod.fst).Nodup →
      ((countRoute acc route).map Prod.fst).Nodup
  | [], _ => by simp [countRoute]
  | (k, c) :: rest, h => by
    have hrest := (List.nodup_cons.1 h).2
    have hk := (List.nodup_cons.1 h).1
    by_cases hkr : k = route
    · simpa [countRoute, hkr] using h
    · simp only [countRoute, if_neg hkr, List.map_cons]
      refine List.nodup_cons.2 ⟨fun hmem => ?_, nodup_keys_countRoute route rest hrest⟩
      rcases (mem_keys_countRoute route k rest).1 hmem with h1 | h1
      · exact hk h1
      · exact hkr h1

theorem lookup_of_mem_nodup {key : String} {count : Nat} :
    ∀ {acc : List (String × Nat)}, (acc.map Prod.fst).Nodup → (key, count) ∈ acc →
      acc.lookup key = some count
  | [], _, h => by cases h
  | (k, c) :: rest, hn, h => by
    rcases List.mem_cons.1 h with h | h
    · cases h
      rw [lookup_cons_ite, if_pos rfl]
    · have hk : k ∉ rest.map Prod.fst := (List.nodup_cons.1 hn).1
      have hne : ¬ key = k := fun hkk => hk (hkk ▸ List.mem_map.2 ⟨(key, count), h, rfl⟩)
      rw [lookup_cons_ite, if_neg hne]
      exact lookup_of_mem_nodup (List.nodup_cons.1 hn).2 h

theorem lookup_foldl_countRoute (key : String) :
    ∀ (history : List SearchEntry) (acc : List (String × Nat)),
      ((history.foldl (fun acc search => countRoute acc (routeKey search)) acc).lookup key).getD 0
        = (acc.lookup key).getD 0 + (history.filter fun e => decide (routeKey e = key)).length
  | [], acc => by simp
  | e :: rest, acc => by
    rw [List.foldl_cons, lookup_foldl_countRoute key rest, lookup_countRoute]
    by_cases h : routeKey e = key
    · simp [h]
      omega
    · have h' : ¬ key = routeKey e := fun hk => h hk.symm
      simp [h, h']

theorem nodup_keys_foldl_countRoute :
    ∀ (history : List SearchEntry) (acc : List (String × Nat)), (acc.map Prod.fst).Nodup →
      ((history.foldl (fun acc search => countRoute acc (routeKey search)) acc).map
        Prod.fst).Nodup
  | [], _, h => h
  | e :: rest, acc, h =>
    nodup_keys_foldl_countRoute rest _ (nodup_keys_countRoute (routeKey e) acc h)

theorem nodup_keys_routeCounts (history : List SearchEntry) :
    ((routeCounts history).map Prod.fst).Nodup :=
  nodup_keys_foldl_countRoute history [] List.nodup_nil

/-- The count kept for a key is the number of entries with that key. -/
theorem routeCounts_count {history : List SearchEntry} {key : String} {count : Nat}
    (h : (key, count) ∈ routeCounts history) :
    count = (history.filter fun e => decide (routeKey e = key)).length := by
  have h1 := lookup_of_mem_nodup (nodup_keys_routeCounts history) h
  have h2 := lookup_foldl_countRoute key history []
  unfold routeCounts at h1
  rw [h1] at h2
  simpa using h2

theorem mem_routeCounts_of_mem_favoriteRoutes {history : List SearchEntry} {r : FavoriteRoute}
    (h : r ∈ favoriteRoutes history) : (r.route, r.count) ∈ routeCounts history := by
  unfold favoriteRoutes at h
  obtain ⟨entry, hentry, rfl⟩ := List.mem_map.1 h
  exact (List.mem_insertionSort _).1 (List.mem_of_mem_take hentry)

/-- The list `favoriteRoutes` has at most five elements and is sorted by
count, largest first. -/
theorem favoriteRoutes_top_five (history : List SearchEntry) :
    (favoriteRoutes history).length ≤ 5 ∧
    (favoriteRoutes history).Pairwise (fun a b => a.count ≥ b.count) := by
  unfold favoriteRoutes
  constructor
  · rw [List.length_map, List.length_take]
    exact Nat.min_le_left _ _
  · rw [List.pairwise_map]
    haveI : IsTotal (String × Nat) (fun a b => a.2 ≥ b.2) := ⟨fun a b => le_total b.2 a.2⟩
    haveI : IsTrans (String × Nat) (fun a b => a.2 ≥ b.2) :=
      ⟨fun _ _ _ hab hbc => le_trans hbc hab⟩
    exact (List.sorted_insertionSort (fun a b : String × Nat => a.2 ≥ b.2) _).sublist
      (List.take_sublist _ _)

set_option maxRecDepth 100000 in
/-- C21 fails on the code. For three searches from Paris to Rome and one
from Berlin to Prague the counts and the order are as claimed, 3 then 1,
but the route strings are built with the separator of the source file,
which is not the arrow: the first route is not `Paris → Rome`. -/
theorem favoriteRoutes_separator_not_arrow :
    favoriteRoutes parisRomeThrice
      = [⟨"Paris" ++ routeSeparator ++ "Rome", 3⟩, ⟨"Berlin" ++ routeSeparator ++ "Prague", 1⟩] ∧
    "Paris" ++ routeSeparator ++ "Rome" ≠ "Paris → Rome" ∧
    routeSeparator.toList.map Char.toNat = [32, 0xe2, 0x2020, 0x2019, 32] ∧
    " → ".toList.map Char.toNat = [32, 0x2192, 32] := by
  decide

/-- C22, as amended. For every history, each element of `favoriteRoutes`
reports as count the number of entries whose route key (the string made of
`from`, the separator and `to`) is its route; no two elements have the
same route; and entries with equal `from` and equal `to` have the same
route key. -/
theorem favoriteRoutes_counts_route_keys (history : List SearchEntry) :
    (∀ r ∈ favoriteRoutes history,
      r.count = (history.filter fun e => decide (routeKey e = r.route)).length) ∧
    ((favoriteRoutes history).map fun r => r.route).Nodup ∧
    ∀ e1 e2 : SearchEntry, e1.from_ = e2.from_ → e1.to_ = e2.to_ → routeKey e1 = routeKey e2 := by
  refine ⟨fun r hr => routeCounts_count (mem_routeCounts_of_mem_favoriteRoutes hr), ?_,
    fun e1 e2 hf ht => by unfold routeKey; rw [hf, ht]⟩
  unfold favoriteRoutes
  rw [List.map_map]
  have hkeys : ((fun r : FavoriteRoute => r.route) ∘ fun entry : String × Nat =>
      (⟨entry.1, entry.2⟩ : FavoriteRoute)) = Prod.fst := rfl
  rw [hkeys]
  exact List.Nodup.sublist ((List.take_sublist _ _).map _)
    (((List.perm_insertionSort _ _).map _).nodup_iff.2 (nodup_keys_routeCounts history))

set_option maxRecDepth 100000 in
/-- C22 as stated fails: the key is the joined string, and two entries
with different `from` and different `to` whose texts hold the separator
are counted under one key, with count 2, although each pair occurs once. -/
theorem favoriteRoutes_distinct_pairs_one_key :
    favoriteRoutes overlappingRoutes
      = [⟨"A" ++ routeSeparator ++ "B" ++ routeSeparator ++ "C", 2⟩] ∧
    (overlappingRoutes.map fun e => e.from_) = ["A", "A" ++ routeSeparator ++ "B"] ∧
    ∀ e ∈ overlappingRoutes,
      (overlappingRoutes.filter fun x => decide (x.from_ = e.from_ ∧ x.to_ = e.to_)).length
        = 1 := by
  decide

/-! ## Store failures in the destination controller -/

theorem searchDestinations_store_failure {env : Env} {db : Db} {q e : String}
    (hq : 2 ≤ jsLength q) (hfa : env.fault db.log.length = some e) :
    (searchDestinations env db (some q)).1 = serverError e := by
  have hne : q ≠ "" := by
    intro h
    rw [h, jsLength_empty] at hq
    omega
  unfold searchDestinations destinationFind Db.issue
  simp only [hne, false_or, Nat.not_lt.2 hq, if_false, hfa]

theorem getPopularDestinations_store_failure {env : Env} {db : Db} {e : String}
    (hfa : env.fault db.log.length = some e) :
    (getPopularDestinations env db).1 = serverError e := by
  unfold getPopularDestinations destinationFind Db.issue
  simp only [hfa]

theorem getPaths_find_failure {env : Env} {db : Db} {req : PathsRequest} {e : String}
    (hv : ValidRequest env req) (hfa : env.fault db.log.length = some e) :
    (getPaths env db req).1 = serverError e := by
  obtain ⟨f, t, reFrom, reTo, hf, ht, hf', ht', hrf, hrt⟩ := hv
  rw [getPaths_fst env db req f t hf ht hf' ht', hrf, hrt]
  simp only [hfa]

theorem foundPaths_ne_nil {reFrom reTo : String → Bool} {tt : Option String} {docs : List Path}
    {p : Path} (hp : p ∈ docs) (hm : pathsQuery reFrom reTo tt p = true) :
    foundPaths reFrom reTo tt docs ≠ [] := by
  intro h
  have hlen := exec_length (pathsQuery reFrom reTo tt) (fun p => p.popularity) 10 docs
  rw [← foundPaths_eq, h] at hlen
  have hpos : 0 < (docs.filter (pathsQuery reFrom reTo tt)).length :=
    List.length_pos_of_mem (List.mem_filter.2 ⟨hp, hm⟩)
  simp only [List.length_nil] at hlen
  omega

theorem getPaths_update_failure {env : Env} {db : Db} {req : PathsRequest} {e : String}
    {p : Path} (hp : p ∈ db.paths) (hm : matchesRequest env req p = true)
    (hfa : env.fault db.log.length = none) (hfb : env.fault (db.log.length + 1) = some e) :
    (getPaths env db req).1 = serverError e := by
  obtain ⟨f, t, reFrom, reTo, hf, ht, hf', ht', hrf, hrt⟩ := matchesRequest_true hm
  rw [matchesRequest_eq hf ht hf' ht' hrf hrt] at hm
  rw [getPaths_fst env db req f t hf ht hf' ht', hrf, hrt]
  simp only [hfa, if_neg (foundPaths_ne_nil hp hm), hfb]

theorem getPathDetails_read_failure {env : Env} {db : Db} {id : String} {oid : ObjectId}
    {e : String} (hid : castObjectId id = some oid) (hfa : env.fault db.log.length = some e) :
    (getPathDetails env db id).1 = serverError e := by
  unfold getPathDetails pathFindById
  rw [hid]
  simp only [Db.issue, hfa]

theorem getPathDetails_save_failure {env : Env} {db : Db} {id : String} {p : Path} {e : String}
    (hp : p ∈ db.paths) (hid : castObjectId id = some p._id)
    (hfa : env.fault db.log.length = none) (hfb : env.fault (db.log.length + 1) = some e) :
    (getPathDetails env db id).1 = serverError e := by
  unfold getPathDetails pathFindById
  rw [hid]
  simp only [Db.issue, hfa]
  cases hfind : db.paths.find? (fun q => q._id == p._id) with
  | none =>
    rw [List.find?_eq_none] at hfind
    exact absurd (by simp) (hfind p hp)
  | some path =>
    simp only [pathSave, Db.issue, List.length_append, List.length_singleton, hfb]

/-- C23. In every handler of the destination controller, a store operation
that fails with message `e` makes the answer the server error of the
`catch` block, status 500 with `e` as its `error` field: the read of
`searchDestinations` (query of length at least 2) and of
`getPopularDestinations`, the read and the increment of `getPaths`, the
read and the save of `getPathDetails`. That answer is not a success and is
neither the 404 nor the 400 answer. -/
theorem store_failure_is_server_error (env : Env) (db : Db) (e : String) :
    (∀ q, 2 ≤ jsLength q → env.fault db.log.length = some e →
      (searchDestinations env db (some q)).1 = serverError e) ∧
    (env.fault db.log.length = some e → (getPopularDestinations env db).1 = serverError e) ∧
    (∀ req, ValidRequest env req → env.fault db.log.length = some e →
      (getPaths env db req).1 = serverError e) ∧
    (∀ req, ∀ p ∈ db.paths, matchesRequest env req p = true →
      env.fault db.log.length = none → env.fault (db.log.length + 1) = some e →
      (getPaths env db req).1 = serverError e) ∧
    (∀ id oid, castObjectId id = some oid → env.fault db.log.length = some e →
      (getPathDetails env db id).1 = serverError e) ∧
    (∀ id, ∀ p ∈ db.paths, castObjectId id = some p._id →
      env.fault db.log.length = none → env.fault (db.log.length + 1) = some e →
      (getPathDetails env db id).1 = serverError e) ∧
    serverError e = ⟨500, .serverError "Server error" e⟩ ∧
    (serverError e).status ≠ 200 ∧ (serverError e).status ≠ 404 ∧
    (serverError e).status ≠ 400 :=
  ⟨fun _ hq hfa => searchDestinations_store_failure hq hfa,
    fun hfa => getPopularDestinations_store_failure hfa,
    fun _ hv hfa => getPaths_find_failure hv hfa,
    fun _ _ hp hm hfa hfb => getPaths_update_failure hp hm hfa hfb,
    fun _ _ hid hfa => getPathDetails_read_failure hid hfa,
    fun _ _ hp hid hfa hfb => getPathDetails_save_failure hp hid hfa hfb,
    rfl, by simp [serverError], by simp [serverError], by simp [serverError]⟩

set_option maxRecDepth 100000 in
/-- Witness of C23: a store that is down, and a store whose second
operation fails. -/
theorem store_failure_is_server_error_witness :
    (getPopularDestinations downEnv nineDestinations).1 = serverError "connection refused" ∧
    (searchDestinations downEnv nineDestinations (some "Paris")).1
      = serverError "connection refused" ∧
    (getPaths flakyEnv sampleDb parisRome).1 = serverError "connection reset" ∧
    (getPathDetails flakyEnv expressDb "0000000000000000000000a7").1
      = serverError "connection reset" :=
  ⟨(store_failure_is_server_error downEnv nineDestinations "connection refused").2.1 rfl,
    (store_failure_is_server_error downEnv nineDestinations "connection refused").1 "Paris"
      (by decide) rfl,
    (store_failure_is_server_error flakyEnv sampleDb "connection reset").2.2.2.1 parisRome
      (mkPath 1 "Paris" "Rome" 5) (by decide) (by decide) rfl rfl,
    (store_failure_is_server_error flakyEnv expressDb "connection reset").2.2.2.2.2.1
      "0000000000000000000000a7" romeExpress (by decide) (by decide) rfl rfl⟩

/-! ## Validation and missing users in `recordSearch` -/

/-- A request whose `from` or `to` is missing or the empty string is
answered with the validation error, and the store is returned as it was. -/
theorem recordSearch_rejects_empty (env : UserEnv) (store : UserStore) (userId : ObjectId)
    (from_ to_ : Option String) (now stamp : Int) (newId : ObjectId)
    (h : from_ = none ∨ from_ = some "" ∨ to_ = none ∨ to_ = some "") :
    recordSearch env store userId from_ to_ now stamp newId
      = (⟨400, .validationFailed "Validation failed" (validationErrors from_ to_)⟩, store) ∧
    validationErrors from_ to_ ≠ [] := by
  have hne : validationErrors from_ to_ ≠ [] := by
    unfold validationErrors
    rcases h with h | h | h | h <;> subst h <;> simp [notEmpty]
  unfold recordSearch
  rw [if_pos hne]
  exact ⟨rfl, hne⟩

set_option maxRecDepth 100000 in
/-- C24 fails on the code. The chain `notEmpty()` then `trim()` validates
the text before trimming it: a `from` of two spaces passes the validation,
the answer is the success, and an entry with the empty `from` is stored. -/
theorem recordSearch_stores_blank_from :
    (recordSearch plainUserEnv (oneUser threeSearches) 1 (some "  ") (some "Rome") 5000 5000
        99).1 = ⟨200, .success "Search added to history"⟩ ∧
    historyOf (recordSearch plainUserEnv (oneUser threeSearches) 1 (some "  ") (some "Rome")
        5000 5000 99).2 1 = threeSearches ++ [⟨99, "", "Rome", 5000⟩] := by
  decide

/-- C30. For a user id that the store does not hold and non-empty `from`
and `to`, `recordSearch` ends in its `catch` block: status 500 with the
message `Server error while adding search to history` (not 404, not a
success), and the store is returned as it was. -/
theorem recordSearch_missing_user (env : UserEnv) (store : UserStore) (userId : ObjectId)
    (hu : store userId = none) (f t : String) (hf : f ≠ "") (ht : t ≠ "") (now stamp : Int)
    (newId : ObjectId) :
    recordSearch env store userId (some f) (some t) now stamp newId
      = (⟨500, .failure "Server error while adding search to history"
            (if env.development then some (env.message .nullUser) else none)⟩, store) := by
  unfold recordSearch
  rw [validationErrors_nil hf ht]
  simp only [ne_eq, not_true_eq_false, if_false, hu]
  rfl

/-- Witness of C30: the user of id 7 is not in the store. -/
theorem recordSearch_missing_user_witness :
    oneUser threeSearches 7 = none ∧ "Lyon" ≠ "" ∧ "Nice" ≠ "" ∧
    recordSearch plainUserEnv (oneUser threeSearches) 7 (some "Lyon") (some "Nice") 5000 5000 99
      = (⟨500, .failure "Server error while adding search to history"
            (if plainUserEnv.development then some (plainUserEnv.message .nullUser) else none)⟩,
          oneUser threeSearches) :=
  ⟨by decide, by decide, by decide,
    recordSearch_missing_user plainUserEnv (oneUser threeSearches) 7 (by decide) "Lyon" "Nice"
      (by decide) (by decide) 5000 5000 99⟩

/-! ## What the responses carry -/

/-- C26, as amended. In a collection with distinct ids, every path in a
`getPaths` response is a stored path as it was before the call; when its
popularity is from `-2 ^ 53` up to, and not including, `2 ^ 53`, the stored
path of the same id after the call is that path with popularity one more.
The response of `getPathDetails`, with a store that does not fail and for
a popularity in the same range, carries the incremented popularity, which
is the stored one after the call. -/
theorem getPaths_response_pre_increment (env : Env) (db : Db) (req : PathsRequest)
    (hids : UniqueIds db.paths) :
    (∀ r ∈ returnedPaths (getPaths env db req).1,
      r ∈ db.paths ∧
      (-2 ^ 53 ≤ r.popularity → r.popularity < 2 ^ 53 →
        { r with popularity := r.popularity + 1 } ∈ (getPaths env db req).2.paths ∧
        ∀ q ∈ (getPaths env db req).2.paths, q._id = r._id →
          q.popularity = r.popularity + 1)) ∧
    (NoFault env → ∀ p ∈ db.paths, -2 ^ 53 ≤ p.popularity → p.popularity < 2 ^ 53 →
      ∀ id, castObjectId id = some p._id →
      (getPathDetails env db id).1 = ⟨200, .path { p with popularity := p.popularity + 1 }⟩ ∧
      { p with popularity := p.popularity + 1 } ∈ (getPathDetails env db id).2.paths) := by
  constructor
  · intro r hr
    obtain ⟨f, t, reFrom, reTo, _, _, _, _, _, _, hret, hpaths⟩ := getPaths_returned hr
    rw [hret] at hr
    have hsub : ∀ x ∈ foundPaths reFrom reTo req.transportType db.paths, x ∈ db.paths :=
      fun x hx => (mem_foundPaths hx).1
    rw [hpaths]
    refine ⟨hsub r hr, fun hlo hhi => ⟨List.mem_map.2 ⟨r, hsub r hr, ?_⟩, ?_⟩⟩
    · rw [incIfReturned_of_mem hr, incPopularity_exact hlo hhi]
    · intro q hq hid
      obtain ⟨q0, hq0, rfl⟩ := List.mem_map.1 hq
      rw [incIfReturned_id] at hid
      rw [eq_of_id_eq hids hq0 (hsub r hr) hid, incIfReturned_of_mem hr,
        incPopularity_exact hlo hhi]
  · intro hnf p hp hlo hhi id hid
    rw [getPathDetails_found hnf hids hp hid, incPopularity_exact hlo hhi, jsAdd_one hlo hhi]
    exact ⟨rfl, List.mem_map.2 ⟨p, hp, by simp⟩⟩

set_option maxRecDepth 100000 in
/-- Witness of C26 on the sample collection. -/
theorem getPaths_response_pre_increment_witness :
    UniqueIds sampleDb.paths ∧
    mkPath 1 "Paris" "Rome" 5 ∈ returnedPaths (getPaths plainEnv sampleDb parisRome).1 ∧
    -2 ^ 53 ≤ (mkPath 1 "Paris" "Rome" 5).popularity ∧
    (mkPath 1 "Paris" "Rome" 5).popularity < 2 ^ 53 ∧
    ((∀ r ∈ returnedPaths (getPaths plainEnv sampleDb parisRome).1,
      r ∈ sampleDb.paths ∧
      (-2 ^ 53 ≤ r.popularity → r.popularity < 2 ^ 53 →
        { r with popularity := r.popularity + 1 }
          ∈ (getPaths plainEnv sampleDb parisRome).2.paths ∧
        ∀ q ∈ (getPaths plainEnv sampleDb parisRome).2.paths, q._id = r._id →
          q.popularity = r.popularity + 1)) ∧
    (NoFault plainEnv → ∀ p ∈ sampleDb.paths, -2 ^ 53 ≤ p.popularity → p.popularity < 2 ^ 53 →
      ∀ id, castObjectId id = some p._id →
      (getPathDetails plainEnv sampleDb id).1
        = ⟨200, .path { p with popularity := p.popularity + 1 }⟩ ∧
      { p with popularity := p.popularity + 1 } ∈ (getPathDetails plainEnv sampleDb id).2.paths)) :=
  ⟨by decide, by decide, by decide, by decide,
    getPaths_response_pre_increment plainEnv sampleDb parisRome (by decide)⟩

set_option maxRecDepth 100000 in
/-- C26 as stated fails where a Number cannot count up: the response of
`getPaths` carries the popularity `2 ^ 53` of a returned path, and the
stored path of that id has the same popularity after the call, not one
more; the response of `getPathDetails` for that path carries `2 ^ 53` too,
the value stored before the call. -/
theorem getPaths_response_saturated_equals_stored :
    UniqueIds saturatedDb.paths ∧
    saturated ∈ returnedPaths (getPaths plainEnv saturatedDb parisRome).1 ∧
    (∀ q ∈ (getPaths plainEnv saturatedDb parisRome).2.paths, q._id = saturated._id →
      q.popularity = saturated.popularity ∧ q.popularity ≠ saturated.popularity + 1) ∧
    (∃ q ∈ (getPaths plainEnv saturatedDb parisRome).2.paths, q._id = saturated._id) ∧
    castObjectId "000000000000000000000007" = some saturated._id ∧
    (getPathDetails plainEnv saturatedDb "000000000000000000000007").1
      = ⟨200, .path saturated⟩ := by
  decide

/-! ## Refreshing a duplicate, and the window -/

theorem setSearchedAt_append_cons (time : Int) {before : List SearchEntry}
    (d : SearchEntry) (after : List SearchEntry) (h : ∀ x ∈ before, x._id ≠ d._id) :
    setSearchedAt d._id time (before ++ d :: after)
      = before ++ { d with searchedAt := time } :: after := by
  induction before with
  | nil => simp [setSearchedAt]
  | cons s rest ih =>
    have hs : s._id ≠ d._id := h s (List.mem_cons_self _ _)
    have ih' := ih fun x hx => h x (List.mem_cons_of_mem _ hx)
    rw [List.cons_append, setSearchedAt, if_neg hs, ih', List.cons_append]

/-- C27. When `recordSearch` finds a recent duplicate `d` in a history with
distinct entry ids, `d` is the first entry of the history that passes the
duplicate test, and the new history is the old one with `d` replaced, in
place, by `d` with `searchedAt` set to the time of the call: same length
and order, same id and same stored `from` and `to` for `d`, every other
entry unchanged. -/
theorem recordSearch_refresh_frame (env : UserEnv) (store : UserStore) (userId : ObjectId)
    (user : User) (hu : store userId = some user) (f t : String) (hf : f ≠ "") (ht : t ≠ "")
    (now stamp : Int) (newId : ObjectId) (d : SearchEntry)
    (hfind : user.searchHistory.find?
      (isRecentDuplicate env (trim f) (trim t) (now - 60 * 60 * 1000)) = some d)
    (hids : (user.searchHistory.map fun s => s._id).Nodup) :
    ∃ before after, user.searchHistory = before ++ d :: after ∧
      (∀ x ∈ before,
        isRecentDuplicate env (trim f) (trim t) (now - 60 * 60 * 1000) x = false) ∧
      historyOf (recordSearch env store userId (some f) (some t) now stamp newId).2 userId
        = before ++ ⟨d._id, d.from_, d.to_, stamp⟩ :: after := by
  obtain ⟨_, before, after, hsplit, hbefore⟩ := List.find?_eq_some.1 hfind
  refine ⟨before, after, hsplit, fun x hx => by simpa using hbefore x hx, ?_⟩
  rw [recordSearch_refresh env hu hf ht now stamp newId hfind]
  simp only []
  rw [historyOf_updateHistory store userId _ hu, hsplit]
  rw [hsplit, List.map_append, List.map_cons, List.nodup_append] at hids
  exact setSearchedAt_append_cons stamp d after fun x hx hid =>
    hids.2.2 (List.mem_map.2 ⟨x, hx, rfl⟩) (by rw [hid]; exact List.mem_cons_self _ _)

set_option maxRecDepth 100000 in
/-- Witness of C27: `BERLIN`/`prague` refreshes the second of three entries. -/
theorem recordSearch_refresh_frame_witness :
    oneUser threeSearches 1 = some (mkUser 1 threeSearches) ∧ "BERLIN" ≠ "" ∧ "prague" ≠ "" ∧
    (mkUser 1 threeSearches).searchHistory.find?
      (isRecentDuplicate plainUserEnv (trim "BERLIN") (trim "prague") (5000 - 60 * 60 * 1000))
      = some ⟨12, "Berlin", "Prague", 2000⟩ ∧
    ((mkUser 1 threeSearches).searchHistory.map fun s => s._id).Nodup ∧
    ∃ before after, (mkUser 1 threeSearches).searchHistory
        = before ++ (⟨12, "Berlin", "Prague", 2000⟩ : SearchEntry) :: after ∧
      (∀ x ∈ before,
        isRecentDuplicate plainUserEnv (trim "BERLIN") (trim "prague") (5000 - 60 * 60 * 1000) x
          = false) ∧
      historyOf (recordSearch plainUserEnv (oneUser threeSearches) 1 (some "BERLIN")
          (some "prague") 5000 5001 99).2 1
        = before ++ ⟨(⟨12, "Berlin", "Prague", 2000⟩ : SearchEntry)._id,
            (⟨12, "Berlin", "Prague", 2000⟩ : SearchEntry).from_,
            (⟨12, "Berlin", "Prague", 2000⟩ : SearchEntry).to_, 5001⟩ :: after :=
  ⟨rfl, by decide, by decide, by decide, by decide,
    recordSearch_refresh_frame plainUserEnv (oneUser threeSearches) 1 (mkUser 1 threeSearches)
      rfl "BERLIN" "prague" (by decide) (by decide) 5000 5001 99 ⟨12, "Berlin", "Prague", 2000⟩
      (by decide) (by decide)⟩

/-- C28. The window is strict at its boundary. An entry whose `searchedAt`
is exactly 3600 seconds before the time of the call does not pass the
duplicate test, and when every entry for the pair is that old or older,
`recordSearch` pushes a new entry; an entry for the pair that is younger
than 3600 seconds passes the test, and `recordSearch` then pushes nothing
and refreshes an entry that passes the test. -/
theorem recordSearch_window_strict (env : UserEnv) (store : UserStore) (userId : ObjectId)
    (user : User) (hu : store userId = some user) (f t : String) (hf : f ≠ "") (ht : t ≠ "")
    (now stamp : Int) (newId : ObjectId) :
    (∀ e, e.searchedAt = now - 3600 * 1000 →
      isRecentDuplicate env (trim f) (trim t) (now - 60 * 60 * 1000) e = false) ∧
    ((∀ e ∈ user.searchHistory, samePair env (trim f) (trim t) e = true →
        e.searchedAt ≤ now - 3600 * 1000) →
      historyOf (recordSearch env store userId (some f) (some t) now stamp newId).2 userId
        = lastN 50 (user.searchHistory ++ [⟨newId, trim f, trim t, stamp⟩])) ∧
    (∀ e ∈ user.searchHistory, samePair env (trim f) (trim t) e = true →
      e.searchedAt > now - 3600 * 1000 →
      ∃ d ∈ user.searchHistory,
        isRecentDuplicate env (trim f) (trim t) (now - 60 * 60 * 1000) d = true ∧
        historyOf (recordSearch env store userId (some f) (some t) now stamp newId).2 userId
          = setSearchedAt d._id stamp user.searchHistory) := by
  refine ⟨fun e he => ?_, fun hold => ?_, fun e he hsame hyoung => ?_⟩
  · rw [isRecentDuplicate_eq, Bool.and_eq_false_imp]
    intro _
    rw [decide_eq_false_iff_not, he]
    omega
  · have hnone : user.searchHistory.find?
        (isRecentDuplicate env (trim f) (trim t) (now - 60 * 60 * 1000)) = none := by
      refine find?_none_of_forall fun x hx => ?_
      rw [isRecentDuplicate_eq, Bool.and_eq_false_imp]
      intro hsame
      rw [decide_eq_false_iff_not]
      have := hold x hx hsame
      omega
    rw [recordSearch_append env hu hf ht now stamp newId hnone]
    simp only []
    rw [historyOf_updateHistory store userId _ hu]
  · have hpass : isRecentDuplicate env (trim f) (trim t) (now - 60 * 60 * 1000) e = true := by
      rw [isRecentDuplicate_eq, hsame, Bool.true_and, decide_eq_true_eq]
      omega
    cases hfind : user.searchHistory.find?
        (isRecentDuplicate env (trim f) (trim t) (now - 60 * 60 * 1000)) with
    | none =>
      rw [List.find?_eq_none] at hfind
      exact absurd hpass (hfind e he)
    | some d =>
      refine ⟨d, List.mem_of_find?_eq_some hfind, List.find?_some hfind, ?_⟩
      rw [recordSearch_refresh env hu hf ht now stamp newId hfind]
      simp only []
      rw [historyOf_updateHistory store userId _ hu]

set_option maxRecDepth 100000 in
/-- Witness of C28: `Paris`/`Rome`, stored at time 1000, searched again
exactly one hour later and one millisecond before that. -/
theorem recordSearch_window_strict_witness :
    oneUser threeSearches 1 = some (mkUser 1 threeSearches) ∧ "Paris" ≠ "" ∧ "Rome" ≠ "" ∧
    historyOf (recordSearch plainUserEnv (oneUser threeSearches) 1 (some "Paris") (some "Rome")
        (1000 + 3600 * 1000) (1000 + 3600 * 1000) 99).2 1
      = threeSearches ++ [⟨99, "Paris", "Rome", 1000 + 3600 * 1000⟩] ∧
    historyOf (recordSearch plainUserEnv (oneUser threeSearches) 1 (some "Paris") (some "Rome")
        (999 + 3600 * 1000) (999 + 3600 * 1000) 99).2 1
      = [⟨11, "Paris", "Rome", 999 + 3600 * 1000⟩, ⟨12, "Berlin", "Prague", 2000⟩,
          ⟨13, "Oslo", "Bergen", 3000⟩] ∧
    (∀ e : SearchEntry, e.searchedAt = (1000 + 3600 * 1000 : Int) - 3600 * 1000 →
      isRecentDuplicate plainUserEnv (trim "Paris") (trim "Rome")
        ((1000 + 3600 * 1000 : Int) - 60 * 60 * 1000) e = false) :=
  ⟨rfl, by decide, by decide, by decide, by decide,
    (recordSearch_window_strict plainUserEnv (oneUser threeSearches) 1 (mkUser 1 threeSearches)
      rfl "Paris" "Rome" (by decide) (by decide) (1000 + 3600 * 1000) (1000 + 3600 * 1000)
      99).1⟩

/-! ## Recent searches of the frontend -/

theorem saveRecentSearch_eq (r : List RecentSearch) (f t ts : String) :
    saveRecentSearch r f t ts
      = ⟨f, t, ts⟩ :: (r.filter fun s => !(s.from_ == f && s.to_ == t)).take 4 := rfl

/-- C29. For every list `r` and every `from`, `to`: the list that
`saveRecentSearch` stores starts with the new search; its other elements
are the first four of the entries of `r` with a different pair, in their
order in `r`, so none of them has the same `from` and `to`; its length is
the minimum of 5 and one more than the number of entries of `r` with a
different pair; and when no two entries of `r` have the same pair, no two
entries of the result have. -/
theorem saveRecentSearch_spec (r : List RecentSearch) (f t ts : String) :
    (saveRecentSearch r f t ts).head? = some ⟨f, t, ts⟩ ∧
    (saveRecentSearch r f t ts).tail
      = (r.filter fun s => !(s.from_ == f && s.to_ == t)).take 4 ∧
    List.Sublist (saveRecentSearch r f t ts).tail r ∧
    (∀ s ∈ (saveRecentSearch r f t ts).tail, ¬ (s.from_ = f ∧ s.to_ = t)) ∧
    (saveRecentSearch r f t ts).length
      = min 5 (1 + (r.filter fun s => !(s.from_ == f && s.to_ == t)).length) ∧
    ((r.map fun s => (s.from_, s.to_)).Nodup →
      ((saveRecentSearch r f t ts).map fun s => (s.from_, s.to_)).Nodup) := by
  rw [saveRecentSearch_eq]
  refine ⟨rfl, rfl, ?_, ?_, ?_, ?_⟩
  · exact (List.take_sublist _ _).trans (List.filter_sublist _)
  · intro s hs hst
    have hmem := List.mem_of_mem_take hs
    have hp := (List.mem_filter.1 hmem).2
    simp [hst.1, hst.2] at hp
  · rw [List.length_cons, List.length_take]
    omega
  · intro hnodup
    rw [List.map_cons, List.nodup_cons]
    constructor
    · intro hmem
      obtain ⟨s, hs, hpair⟩ := List.mem_map.1 hmem
      have hp := (List.mem_filter.1 (List.mem_of_mem_take hs)).2
      simp only [Prod.mk.injEq] at hpair
      simp [hpair.1, hpair.2] at hp
    · exact List.Nodup.sublist
        (((List.take_sublist _ _).trans (List.filter_sublist _)).map _) hnodup

end TravelPath
